import Mathlib

/-!
# termenv screen control sequences

A shallow embedding of `screen.go`: the catalogue of escape-sequence templates and the
`Output` methods that format a template and write it to the bound sink.

* A byte is represented by its numeric value, a natural number (`ESC` is 27, `BEL` is 7,
  `'['` is 91, ...); a Go string is a list of bytes.
* The sink bound to an `Output` is represented by the list of writes it has received,
  oldest first; one call of `Write` on the sink appends one entry.
* Go `int` arguments are integers; the machine range only matters in `Repeat`, whose
  overflow check is kept (64-bit `int`).
* A call either returns the updated `Output` or stops with a `Fault`.
-/

namespace Termenv

/-! ## The part of `fmt` and `strings` the file relies on -/

/-- Why a call does not return normally. -/
inductive Fault where
  /-- `strings.Repeat` panics: "strings: negative Repeat count". -/
  | negativeRepeatCount
  /-- `strings.Repeat` panics: the length of the result overflows `int`. -/
  | repeatOverflow
  /-- A format directive outside the fragment of `fmt` modelled here (only `%d` applied to
  an integer and `%s` applied to a string are modelled; the file uses no other). -/
  | unsupportedFormat
  deriving DecidableEq, Repr

/-- Equality of call results is decidable. -/
instance instDecidableEqResult {ε α : Type} [DecidableEq ε] [DecidableEq α] :
    DecidableEq (Except ε α)
  | .ok a, .ok b =>
    if h : a = b then isTrue (congrArg Except.ok h)
    else isFalse (fun h' => h (Except.ok.inj h'))
  | .error a, .error b =>
    if h : a = b then isTrue (congrArg Except.error h)
    else isFalse (fun h' => h (Except.error.inj h'))
  | .ok _, .error _ => isFalse (fun h => nomatch h)
  | .error _, .ok _ => isFalse (fun h => nomatch h)

/-- An operand passed to a formatting function. -/
inductive Arg where
  | int (n : Int)
  | str (s : List Nat)
  deriving DecidableEq, Repr

/-- The base-10 loop of `fmt.(*fmt).fmtInteger`: digits are produced from the least
significant one and stored right to left in front of `acc`. While `u >= 10` the loop sets
`next := u / 10`, stores the byte `'0' + u - next*10` and continues with `next`; the last
byte stored is `'0' + u`. The first argument bounds the number of iterations. -/
def fmtDigits : Nat → Nat → List Nat → List Nat
  | 0, u, acc => (48 + u) :: acc
  | fuel + 1, u, acc =>
    if 10 ≤ u then fmtDigits fuel (u / 10) ((48 + (u - (u / 10) * 10)) :: acc)
    else (48 + u) :: acc

/-- The verb `%d` on an `int`: the digits of the magnitude, with `'-'` in front of a
negative value. No width, precision or flag is in use. -/
def fmtInteger (n : Int) : List Nat :=
  if n < 0 then 45 :: fmtDigits n.natAbs n.natAbs [] else fmtDigits n.natAbs n.natAbs []

/-- The scan of `fmt.(*pp).doPrintf` over a format: bytes other than `'%'` are copied,
`%d` consumes an integer operand, `%s` consumes a string operand and copies it verbatim.
Operands are never rescanned. Anything else is outside the modelled fragment. -/
def doPrintf : List Nat → List Arg → Except Fault (List Nat)
  | [], [] => .ok []
  | [], _ :: _ => .error .unsupportedFormat
  | b :: rest, args =>
    if b = 37 then
      match rest, args with
      | verb :: rest', Arg.int n :: args' =>
        if verb = 100 then (doPrintf rest' args').map (fmtInteger n ++ ·)
        else .error .unsupportedFormat
      | verb :: rest', Arg.str s :: args' =>
        if verb = 115 then (doPrintf rest' args').map (s ++ ·)
        else .error .unsupportedFormat
      | _, _ => .error .unsupportedFormat
    else (doPrintf rest args).map (b :: ·)

/-- `fmt.Sprintf`. -/
def Sprintf (format : List Nat) (args : List Arg) : Except Fault (List Nat) :=
  doPrintf format args

/-- The largest `int` (64-bit). -/
def maxInt : Nat := 2 ^ 63 - 1

/-- `strings.Repeat`: panics if `count` is negative or if the length of the result
overflows; otherwise `count` copies of `s`. -/
def Repeat (s : List Nat) (count : Int) : Except Fault (List Nat) :=
  if count < 0 then .error .negativeRepeatCount
  else if (maxInt : Int) < (s.length : Int) * count then .error .repeatOverflow
  else .ok (List.replicate count.toNat s).flatten

/-! ## Sequence definitions -/

/-- Modelled from the spec: the constant `CSI` is declared outside `screen.go`; the spec's
glossary gives it as the `ESC [` byte prefix. -/
def CSI : List Nat := [27, 91]

/-- Modelled from the spec: the constant `OSC` is declared outside `screen.go`; the spec's
glossary gives it as the `ESC ]` byte prefix. -/
def OSC : List Nat := [27, 93]

-- Cursor positioning.
/-- The template %dA as bytes. -/
def CursorUpSeq : List Nat := [37, 100, 65]
/-- The template %dB as bytes. -/
def CursorDownSeq : List Nat := [37, 100, 66]
/-- The template %dC as bytes. -/
def CursorForwardSeq : List Nat := [37, 100, 67]
/-- The template %dD as bytes. -/
def CursorBackSeq : List Nat := [37, 100, 68]
/-- The template %dE as bytes. -/
def CursorNextLineSeq : List Nat := [37, 100, 69]
/-- The template %dF as bytes. -/
def CursorPreviousLineSeq : List Nat := [37, 100, 70]
/-- The template %dG as bytes. -/
def CursorHorizontalSeq : List Nat := [37, 100, 71]
/-- The template %d;%dH as bytes. -/
def CursorPositionSeq : List Nat := [37, 100, 59, 37, 100, 72]
/-- The template %dJ as bytes. -/
def EraseDisplaySeq : List Nat := [37, 100, 74]
/-- The template %dK as bytes. -/
def EraseLineSeq : List Nat := [37, 100, 75]
/-- The template %dS as bytes. -/
def ScrollUpSeq : List Nat := [37, 100, 83]
/-- The template %dT as bytes. -/
def ScrollDownSeq : List Nat := [37, 100, 84]
/-- The template s as bytes. -/
def SaveCursorPositionSeq : List Nat := [115]
/-- The template u as bytes. -/
def RestoreCursorPositionSeq : List Nat := [117]
/-- The template %d;%dr as bytes. -/
def ChangeScrollingRegionSeq : List Nat := [37, 100, 59, 37, 100, 114]
/-- The template %dL as bytes. -/
def InsertLineSeq : List Nat := [37, 100, 76]
/-- The template %dM as bytes. -/
def DeleteLineSeq : List Nat := [37, 100, 77]

-- Explicit values for EraseLineSeq.
/-- The template 0K as bytes. -/
def EraseLineRightSeq : List Nat := [48, 75]
/-- The template 1K as bytes. -/
def EraseLineLeftSeq : List Nat := [49, 75]
/-- The template 2K as bytes. -/
def EraseEntireLineSeq : List Nat := [50, 75]

-- Mouse.
/-- The template ?9h as bytes. -/
def EnableMousePressSeq : List Nat := [63, 57, 104]
/-- The template ?9l as bytes. -/
def DisableMousePressSeq : List Nat := [63, 57, 108]
/-- The template ?1000h as bytes. -/
def EnableMouseSeq : List Nat := [63, 49, 48, 48, 48, 104]
/-- The template ?1000l as bytes. -/
def DisableMouseSeq : List Nat := [63, 49, 48, 48, 48, 108]
/-- The template ?1001h as bytes. -/
def EnableMouseHiliteSeq : List Nat := [63, 49, 48, 48, 49, 104]
/-- The template ?1001l as bytes. -/
def DisableMouseHiliteSeq : List Nat := [63, 49, 48, 48, 49, 108]
/-- The template ?1002h as bytes. -/
def EnableMouseCellMotionSeq : List Nat := [63, 49, 48, 48, 50, 104]
/-- The template ?1002l as bytes. -/
def DisableMouseCellMotionSeq : List Nat := [63, 49, 48, 48, 50, 108]
/-- The template ?1003h as bytes. -/
def EnableMouseAllMotionSeq : List Nat := [63, 49, 48, 48, 51, 104]
/-- The template ?1003l as bytes. -/
def DisableMouseAllMotionSeq : List Nat := [63, 49, 48, 48, 51, 108]

-- Screen.
/-- The template ?47l as bytes. -/
def RestoreScreenSeq : List Nat := [63, 52, 55, 108]
/-- The template ?47h as bytes. -/
def SaveScreenSeq : List Nat := [63, 52, 55, 104]
/-- The template ?1049h as bytes. -/
def AltScreenSeq : List Nat := [63, 49, 48, 52, 57, 104]
/-- The template ?1049l as bytes. -/
def ExitAltScreenSeq : List Nat := [63, 49, 48, 52, 57, 108]

-- Session.
/-- The template 2;%s\007 as bytes. -/
def SetWindowTitleSeq : List Nat := [50, 59, 37, 115, 7]
/-- The template 10;%s\007 as bytes. -/
def SetForegroundColorSeq : List Nat := [49, 48, 59, 37, 115, 7]
/-- The template 11;%s\007 as bytes. -/
def SetBackgroundColorSeq : List Nat := [49, 49, 59, 37, 115, 7]
/-- The template 12;%s\007 as bytes. -/
def SetCursorColorSeq : List Nat := [49, 50, 59, 37, 115, 7]
/-- The template ?25h as bytes. -/
def ShowCursorSeq : List Nat := [63, 50, 53, 104]
/-- The template ?25l as bytes. -/
def HideCursorSeq : List Nat := [63, 50, 53, 108]

/-! ## The emitter -/

/-- Modelled from the spec: the type `Output` is declared outside `screen.go`; the spec
describes it as an emitter that binds a sink for its lifetime and owns no other state.
The field `tty` holds the writes the sink has received, oldest first. -/
structure Output where
  tty : List (List Nat)
  deriving DecidableEq, Repr

/-- Modelled from the spec: the type `Color` is declared outside `screen.go`; the spec
treats a colour as an opaque, already resolved value insertable into a string-formatted
sequence. The field is what `%s` renders for it. -/
structure Color where
  rendering : List Nat
  deriving DecidableEq, Repr

/-- `fmt.Fprint(w, s)` with one string operand: a single `Write` of `s`. -/
def Fprint (o : Output) (s : List Nat) : Except Fault Output :=
  .ok { o with tty := o.tty ++ [s] }

/-- `fmt.Fprintf(w, format, args...)`: the formatted text is built in a buffer and handed
to the sink in a single `Write`. -/
def Fprintf (o : Output) (format : List Nat) (args : List Arg) : Except Fault Output :=
  (Sprintf format args).bind fun s => .ok { o with tty := o.tty ++ [s] }

/-- Reset the terminal to its default style. The constant `ResetSeq` is declared outside
`screen.go` and is taken as a parameter. -/
def Output.Reset (ResetSeq : List Nat) (o : Output) : Except Fault Output :=
  Fprint o (CSI ++ ResetSeq ++ [109])

def Output.SetForegroundColor (o : Output) (color : Color) : Except Fault Output :=
  Fprintf o (OSC ++ SetForegroundColorSeq) [Arg.str color.rendering]

def Output.SetBackgroundColor (o : Output) (color : Color) : Except Fault Output :=
  Fprintf o (OSC ++ SetBackgroundColorSeq) [Arg.str color.rendering]

def Output.SetCursorColor (o : Output) (color : Color) : Except Fault Output :=
  Fprintf o (OSC ++ SetCursorColorSeq) [Arg.str color.rendering]

def Output.RestoreScreen (o : Output) : Except Fault Output :=
  Fprint o (CSI ++ RestoreScreenSeq)

def Output.SaveScreen (o : Output) : Except Fault Output :=
  Fprint o (CSI ++ SaveScreenSeq)

def Output.AltScreen (o : Output) : Except Fault Output :=
  Fprint o (CSI ++ AltScreenSeq)

def Output.ExitAltScreen (o : Output) : Except Fault Output :=
  Fprint o (CSI ++ ExitAltScreenSeq)

def Output.MoveCursor (o : Output) (row : Int) (column : Int) : Except Fault Output :=
  Fprintf o (CSI ++ CursorPositionSeq) [Arg.int row, Arg.int column]

def Output.ClearScreen (o : Output) : Except Fault Output :=
  (Fprintf o (CSI ++ EraseDisplaySeq) [Arg.int 2]).bind fun o =>
  o.MoveCursor 1 1

def Output.HideCursor (o : Output) : Except Fault Output :=
  Fprintf o (CSI ++ HideCursorSeq) []

def Output.ShowCursor (o : Output) : Except Fault Output :=
  Fprintf o (CSI ++ ShowCursorSeq) []

def Output.SaveCursorPosition (o : Output) : Except Fault Output :=
  Fprint o (CSI ++ SaveCursorPositionSeq)

def Output.RestoreCursorPosition (o : Output) : Except Fault Output :=
  Fprint o (CSI ++ RestoreCursorPositionSeq)

def Output.CursorUp (o : Output) (n : Int) : Except Fault Output :=
  Fprintf o (CSI ++ CursorUpSeq) [Arg.int n]

def Output.CursorDown (o : Output) (n : Int) : Except Fault Output :=
  Fprintf o (CSI ++ CursorDownSeq) [Arg.int n]

def Output.CursorForward (o : Output) (n : Int) : Except Fault Output :=
  Fprintf o (CSI ++ CursorForwardSeq) [Arg.int n]

def Output.CursorBack (o : Output) (n : Int) : Except Fault Output :=
  Fprintf o (CSI ++ CursorBackSeq) [Arg.int n]

def Output.CursorNextLine (o : Output) (n : Int) : Except Fault Output :=
  Fprintf o (CSI ++ CursorNextLineSeq) [Arg.int n]

def Output.CursorPrevLine (o : Output) (n : Int) : Except Fault Output :=
  Fprintf o (CSI ++ CursorPreviousLineSeq) [Arg.int n]

def Output.ClearLine (o : Output) : Except Fault Output :=
  Fprint o (CSI ++ EraseEntireLineSeq)

def Output.ClearLineLeft (o : Output) : Except Fault Output :=
  Fprint o (CSI ++ EraseLineLeftSeq)

def Output.ClearLineRight (o : Output) : Except Fault Output :=
  Fprint o (CSI ++ EraseLineRightSeq)

def Output.ClearLines (o : Output) (n : Int) : Except Fault Output :=
  (Sprintf (CSI ++ EraseLineSeq) [Arg.int 2]).bind fun clearLine =>
  (Sprintf (CSI ++ CursorUpSeq) [Arg.int 1]).bind fun cursorUp =>
  (Repeat (cursorUp ++ clearLine) n).bind fun repeated =>
  Fprint o (clearLine ++ repeated)

def Output.ChangeScrollingRegion (o : Output) (top bottom : Int) : Except Fault Output :=
  Fprintf o (CSI ++ ChangeScrollingRegionSeq) [Arg.int top, Arg.int bottom]

def Output.InsertLines (o : Output) (n : Int) : Except Fault Output :=
  Fprintf o (CSI ++ InsertLineSeq) [Arg.int n]

def Output.DeleteLines (o : Output) (n : Int) : Except Fault Output :=
  Fprintf o (CSI ++ DeleteLineSeq) [Arg.int n]

def Output.EnableMousePress (o : Output) : Except Fault Output :=
  Fprint o (CSI ++ EnableMousePressSeq)

def Output.DisableMousePress (o : Output) : Except Fault Output :=
  Fprint o (CSI ++ DisableMousePressSeq)

def Output.EnableMouse (o : Output) : Except Fault Output :=
  Fprint o (CSI ++ EnableMouseSeq)

def Output.DisableMouse (o : Output) : Except Fault Output :=
  Fprint o (CSI ++ DisableMouseSeq)

def Output.EnableMouseHilite (o : Output) : Except Fault Output :=
  Fprint o (CSI ++ EnableMouseHiliteSeq)

def Output.DisableMouseHilite (o : Output) : Except Fault Output :=
  Fprint o (CSI ++ DisableMouseHiliteSeq)

def Output.EnableMouseCellMotion (o : Output) : Except Fault Output :=
  Fprint o (CSI ++ EnableMouseCellMotionSeq)

def Output.DisableMouseCellMotion (o : Output) : Except Fault Output :=
  Fprint o (CSI ++ DisableMouseCellMotionSeq)

def Output.EnableMouseAllMotion (o : Output) : Except Fault Output :=
  Fprint o (CSI ++ EnableMouseAllMotionSeq)

def Output.DisableMouseAllMotion (o : Output) : Except Fault Output :=
  Fprint o (CSI ++ DisableMouseAllMotionSeq)

def Output.SetWindowTitle (o : Output) (title : List Nat) : Except Fault Output :=
  Fprintf o (OSC ++ SetWindowTitleSeq) [Arg.str title]

/-! ## Reference notions used in the statements -/

/-- The decimal rendering of a natural number: its base-10 digits, most significant
first, as ASCII; `0` is rendered as the single digit `'0'`. -/
def decimal (n : Nat) : List Nat :=
  if n = 0 then [48] else (Nat.digits 10 n).reverse.map (48 + ·)

/-- Read a string of ASCII digits, most significant first, continuing from the value
`acc`; any other byte makes the reading fail. -/
def readDigits : List Nat → Nat → Option Nat
  | [], acc => some acc
  | b :: bs, acc => if 48 ≤ b ∧ b ≤ 57 then readDigits bs (acc * 10 + (b - 48)) else none

/-- Read a nonempty string of ASCII digits as a decimal number. -/
def readDecimal (bs : List Nat) : Option Nat :=
  if bs = [] then none else readDigits bs 0

/-- The parser of the round-trip property, following the spec's words: strip the leading
`ESC [` and the trailing `'H'`, split at the `';'`, read both parts as decimal numbers. -/
def parseCursorPosition (w : List Nat) : Option (Nat × Nat) :=
  if w.take 2 = [27, 91] ∧ w.getLast? = some 72 then
    match ((w.drop 2).dropLast).dropWhile (fun b => b != 59) with
    | _ :: c =>
      (readDecimal (((w.drop 2).dropLast).takeWhile (fun b => b != 59))).bind fun row =>
      (readDecimal c).map fun col => (row, col)
    | [] => none
  else none

/-- A call of one of the methods of `Output` defined in `screen.go`, with its arguments. -/
inductive Op where
  | Reset
  | SetForegroundColor (color : Color)
  | SetBackgroundColor (color : Color)
  | SetCursorColor (color : Color)
  | RestoreScreen
  | SaveScreen
  | AltScreen
  | ExitAltScreen
  | ClearScreen
  | MoveCursor (row column : Int)
  | HideCursor
  | ShowCursor
  | SaveCursorPosition
  | RestoreCursorPosition
  | CursorUp (n : Int)
  | CursorDown (n : Int)
  | CursorForward (n : Int)
  | CursorBack (n : Int)
  | CursorNextLine (n : Int)
  | CursorPrevLine (n : Int)
  | ClearLine
  | ClearLineLeft
  | ClearLineRight
  | ClearLines (n : Int)
  | ChangeScrollingRegion (top bottom : Int)
  | InsertLines (n : Int)
  | DeleteLines (n : Int)
  | EnableMousePress
  | DisableMousePress
  | EnableMouse
  | DisableMouse
  | EnableMouseHilite
  | DisableMouseHilite
  | EnableMouseCellMotion
  | DisableMouseCellMotion
  | EnableMouseAllMotion
  | DisableMouseAllMotion
  | SetWindowTitle (title : List Nat)
  deriving DecidableEq, Repr

/-- Perform a call on an `Output`. `ResetSeq` is the constant used by `Reset`. -/
def Op.run (ResetSeq : List Nat) : Op → Output → Except Fault Output
  | .Reset, o => o.Reset ResetSeq
  | .SetForegroundColor color, o => o.SetForegroundColor color
  | .SetBackgroundColor color, o => o.SetBackgroundColor color
  | .SetCursorColor color, o => o.SetCursorColor color
  | .RestoreScreen, o => o.RestoreScreen
  | .SaveScreen, o => o.SaveScreen
  | .AltScreen, o => o.AltScreen
  | .ExitAltScreen, o => o.ExitAltScreen
  | .ClearScreen, o => o.ClearScreen
  | .MoveCursor row column, o => o.MoveCursor row column
  | .HideCursor, o => o.HideCursor
  | .ShowCursor, o => o.ShowCursor
  | .SaveCursorPosition, o => o.SaveCursorPosition
  | .RestoreCursorPosition, o => o.RestoreCursorPosition
  | .CursorUp n, o => o.CursorUp n
  | .CursorDown n, o => o.CursorDown n
  | .CursorForward n, o => o.CursorForward n
  | .CursorBack n, o => o.CursorBack n
  | .CursorNextLine n, o => o.CursorNextLine n
  | .CursorPrevLine n, o => o.CursorPrevLine n
  | .ClearLine, o => o.ClearLine
  | .ClearLineLeft, o => o.ClearLineLeft
  | .ClearLineRight, o => o.ClearLineRight
  | .ClearLines n, o => o.ClearLines n
  | .ChangeScrollingRegion top bottom, o => o.ChangeScrollingRegion top bottom
  | .InsertLines n, o => o.InsertLines n
  | .DeleteLines n, o => o.DeleteLines n
  | .EnableMousePress, o => o.EnableMousePress
  | .DisableMousePress, o => o.DisableMousePress
  | .EnableMouse, o => o.EnableMouse
  | .DisableMouse, o => o.DisableMouse
  | .EnableMouseHilite, o => o.EnableMouseHilite
  | .DisableMouseHilite, o => o.DisableMouseHilite
  | .EnableMouseCellMotion, o => o.EnableMouseCellMotion
  | .DisableMouseCellMotion, o => o.DisableMouseCellMotion
  | .EnableMouseAllMotion, o => o.EnableMouseAllMotion
  | .DisableMouseAllMotion, o => o.DisableMouseAllMotion
  | .SetWindowTitle title, o => o.SetWindowTitle title

/-! ## Legacy functions -/

/-- Modelled from the spec: the colour profile type is declared outside `screen.go`; the
legacy functions only name the profile `ANSI`. -/
inductive Profile where
  | ANSI
  deriving DecidableEq, Repr

/-- Modelled from the spec: `NewOutputWithProfile` is declared outside `screen.go`; the
spec treats default-sink selection as a black box returning a ready-to-use emitter bound
to the given destination. The profile plays no part in the methods of `screen.go`. -/
def NewOutputWithProfile (tty : List (List Nat)) (_profile : Profile) : Output :=
  { tty := tty }

/-- The legacy function `Reset`; the package variable `defaultOutputFile` and the
constant `ResetSeq` are declared outside `screen.go` and are taken as parameters. -/
def Reset (ResetSeq : List Nat) (defaultOutputFile : List (List Nat)) :
    Except Fault Output :=
  (NewOutputWithProfile defaultOutputFile Profile.ANSI).Reset ResetSeq

def SetForegroundColor (defaultOutputFile : List (List Nat)) (color : Color) :
    Except Fault Output :=
  (NewOutputWithProfile defaultOutputFile Profile.ANSI).SetForegroundColor color

def SetBackgroundColor (defaultOutputFile : List (List Nat)) (color : Color) :
    Except Fault Output :=
  (NewOutputWithProfile defaultOutputFile Profile.ANSI).SetBackgroundColor color

def SetCursorColor (defaultOutputFile : List (List Nat)) (color : Color) :
    Except Fault Output :=
  (NewOutputWithProfile defaultOutputFile Profile.ANSI).SetCursorColor color

def RestoreScreen (defaultOutputFile : List (List Nat)) :
    Except Fault Output :=
  (NewOutputWithProfile defaultOutputFile Profile.ANSI).RestoreScreen

def SaveScreen (defaultOutputFile : List (List Nat)) :
    Except Fault Output :=
  (NewOutputWithProfile defaultOutputFile Profile.ANSI).SaveScreen

def AltScreen (defaultOutputFile : List (List Nat)) :
    Except Fault Output :=
  (NewOutputWithProfile defaultOutputFile Profile.ANSI).AltScreen

def ExitAltScreen (defaultOutputFile : List (List Nat)) :
    Except Fault Output :=
  (NewOutputWithProfile defaultOutputFile Profile.ANSI).ExitAltScreen

def ClearScreen (defaultOutputFile : List (List Nat)) :
    Except Fault Output :=
  (NewOutputWithProfile defaultOutputFile Profile.ANSI).ClearScreen

def MoveCursor (defaultOutputFile : List (List Nat)) (row : Int) (column : Int) :
    Except Fault Output :=
  (NewOutputWithProfile defaultOutputFile Profile.ANSI).MoveCursor row column

def HideCursor (defaultOutputFile : List (List Nat)) :
    Except Fault Output :=
  (NewOutputWithProfile defaultOutputFile Profile.ANSI).HideCursor

def ShowCursor (defaultOutputFile : List (List Nat)) :
    Except Fault Output :=
  (NewOutputWithProfile defaultOutputFile Profile.ANSI).ShowCursor

def SaveCursorPosition (defaultOutputFile : List (List Nat)) :
    Except Fault Output :=
  (NewOutputWithProfile defaultOutputFile Profile.ANSI).SaveCursorPosition

def RestoreCursorPosition (defaultOutputFile : List (List Nat)) :
    Except Fault Output :=
  (NewOutputWithProfile defaultOutputFile Profile.ANSI).RestoreCursorPosition

def CursorUp (defaultOutputFile : List (List Nat)) (n : Int) :
    Except Fault Output :=
  (NewOutputWithProfile defaultOutputFile Profile.ANSI).CursorUp n

def CursorDown (defaultOutputFile : List (List Nat)) (n : Int) :
    Except Fault Output :=
  (NewOutputWithProfile defaultOutputFile Profile.ANSI).CursorDown n

def CursorForward (defaultOutputFile : List (List Nat)) (n : Int) :
    Except Fault Output :=
  (NewOutputWithProfile defaultOutputFile Profile.ANSI).CursorForward n

def CursorBack (defaultOutputFile : List (List Nat)) (n : Int) :
    Except Fault Output :=
  (NewOutputWithProfile defaultOutputFile Profile.ANSI).CursorBack n

def CursorNextLine (defaultOutputFile : List (List Nat)) (n : Int) :
    Except Fault Output :=
  (NewOutputWithProfile defaultOutputFile Profile.ANSI).CursorNextLine n

def CursorPrevLine (defaultOutputFile : List (List Nat)) (n : Int) :
    Except Fault Output :=
  (NewOutputWithProfile defaultOutputFile Profile.ANSI).CursorPrevLine n

def ClearLine (defaultOutputFile : List (List Nat)) :
    Except Fault Output :=
  (NewOutputWithProfile defaultOutputFile Profile.ANSI).ClearLine

def ClearLineLeft (defaultOutputFile : List (List Nat)) :
    Except Fault Output :=
  (NewOutputWithProfile defaultOutputFile Profile.ANSI).ClearLineLeft

def ClearLineRight (defaultOutputFile : List (List Nat)) :
    Except Fault Output :=
  (NewOutputWithProfile defaultOutputFile Profile.ANSI).ClearLineRight

def ClearLines (defaultOutputFile : List (List Nat)) (n : Int) :
    Except Fault Output :=
  (NewOutputWithProfile defaultOutputFile Profile.ANSI).ClearLines n

def ChangeScrollingRegion (defaultOutputFile : List (List Nat)) (top : Int) (bottom : Int) :
    Except Fault Output :=
  (NewOutputWithProfile defaultOutputFile Profile.ANSI).ChangeScrollingRegion top bottom

def InsertLines (defaultOutputFile : List (List Nat)) (n : Int) :
    Except Fault Output :=
  (NewOutputWithProfile defaultOutputFile Profile.ANSI).InsertLines n

def DeleteLines (defaultOutputFile : List (List Nat)) (n : Int) :
    Except Fault Output :=
  (NewOutputWithProfile defaultOutputFile Profile.ANSI).DeleteLines n

def EnableMousePress (defaultOutputFile : List (List Nat)) :
    Except Fault Output :=
  (NewOutputWithProfile defaultOutputFile Profile.ANSI).EnableMousePress

def DisableMousePress (defaultOutputFile : List (List Nat)) :
    Except Fault Output :=
  (NewOutputWithProfile defaultOutputFile Profile.ANSI).DisableMousePress

def EnableMouse (defaultOutputFile : List (List Nat)) :
    Except Fault Output :=
  (NewOutputWithProfile defaultOutputFile Profile.ANSI).EnableMouse

def DisableMouse (defaultOutputFile : List (List Nat)) :
    Except Fault Output :=
  (NewOutputWithProfile defaultOutputFile Profile.ANSI).DisableMouse

def EnableMouseHilite (defaultOutputFile : List (List Nat)) :
    Except Fault Output :=
  (NewOutputWithProfile defaultOutputFile Profile.ANSI).EnableMouseHilite

def DisableMouseHilite (defaultOutputFile : List (List Nat)) :
    Except Fault Output :=
  (NewOutputWithProfile defaultOutputFile Profile.ANSI).DisableMouseHilite

def EnableMouseCellMotion (defaultOutputFile : List (List Nat)) :
    Except Fault Output :=
  (NewOutputWithProfile defaultOutputFile Profile.ANSI).EnableMouseCellMotion

def DisableMouseCellMotion (defaultOutputFile : List (List Nat)) :
    Except Fault Output :=
  (NewOutputWithProfile defaultOutputFile Profile.ANSI).DisableMouseCellMotion

def EnableMouseAllMotion (defaultOutputFile : List (List Nat)) :
    Except Fault Output :=
  (NewOutputWithProfile defaultOutputFile Profile.ANSI).EnableMouseAllMotion

def DisableMouseAllMotion (defaultOutputFile : List (List Nat)) :
    Except Fault Output :=
  (NewOutputWithProfile defaultOutputFile Profile.ANSI).DisableMouseAllMotion

def SetWindowTitle (defaultOutputFile : List (List Nat)) (title : List Nat) :
    Except Fault Output :=
  (NewOutputWithProfile defaultOutputFile Profile.ANSI).SetWindowTitle title

/-! ## Further notions used in the statements -/

/-- The calls that take no argument. -/
def Op.noParams : Op → Bool
  | .Reset => true
  | .RestoreScreen => true
  | .SaveScreen => true
  | .AltScreen => true
  | .ExitAltScreen => true
  | .ClearScreen => true
  | .HideCursor => true
  | .ShowCursor => true
  | .SaveCursorPosition => true
  | .RestoreCursorPosition => true
  | .ClearLine => true
  | .ClearLineLeft => true
  | .ClearLineRight => true
  | .EnableMousePress => true
  | .DisableMousePress => true
  | .EnableMouse => true
  | .DisableMouse => true
  | .EnableMouseHilite => true
  | .DisableMouseHilite => true
  | .EnableMouseCellMotion => true
  | .DisableMouseCellMotion => true
  | .EnableMouseAllMotion => true
  | .DisableMouseAllMotion => true
  | _ => false

/-- The calls whose template is prefixed with `CSI` (all but the four `OSC` ones). -/
def Op.usesCSI : Op → Bool
  | .SetForegroundColor _ => false
  | .SetBackgroundColor _ => false
  | .SetCursorColor _ => false
  | .SetWindowTitle _ => false
  | _ => true

/-- The integer arguments of a call, in order. -/
def Op.intArgs : Op → List Int
  | .MoveCursor row column => [row, column]
  | .CursorUp n => [n]
  | .CursorDown n => [n]
  | .CursorForward n => [n]
  | .CursorBack n => [n]
  | .CursorNextLine n => [n]
  | .CursorPrevLine n => [n]
  | .ClearLines n => [n]
  | .ChangeScrollingRegion top bottom => [top, bottom]
  | .InsertLines n => [n]
  | .DeleteLines n => [n]
  | _ => []

/-- Where a reader of control sequences stands: before a sequence (none read yet),
after its `ESC`, inside it (after `ESC [`), or just after a final byte. -/
inductive CsiState where
  | start
  | afterEsc
  | body
  | done
  deriving DecidableEq, Repr

/-- Recogniser of a concatenation of one or more well-formed CSI sequences, each of
the shape `ESC [`, then zero or more parameter bytes in the range 0x30 to 0x3F, then
exactly one final byte in the range 0x40 to 0x7E. No other byte is accepted. -/
def csiAccepts : CsiState → List Nat → Bool
  | .start, [] => false
  | .start, b :: rest => b == 27 && csiAccepts .afterEsc rest
  | .afterEsc, [] => false
  | .afterEsc, b :: rest => b == 91 && csiAccepts .body rest
  | .body, [] => false
  | .body, b :: rest =>
    if 48 ≤ b ∧ b ≤ 63 then csiAccepts .body rest
    else if 64 ≤ b ∧ b ≤ 126 then csiAccepts .done rest
    else false
  | .done, [] => true
  | .done, b :: rest => b == 27 && csiAccepts .afterEsc rest

/-- The number of positions of `w` at which `pat` occurs. -/
def countSeq (pat : List Nat) : List Nat → Nat
  | [] => 0
  | b :: rest => (if pat.isPrefixOf (b :: rest) then 1 else 0) + countSeq pat rest

/-- The decimal rendering of an integer: a minus sign in front of the rendering of the
magnitude when the value is negative. -/
def signedDecimal (i : Int) : List Nat :=
  if i < 0 then 45 :: decimal i.natAbs else decimal i.natAbs

/-! ## Formatting lemmas -/

theorem decimal_zero : decimal 0 = [48] := by
  simp [decimal]

theorem decimal_of_lt_ten {u : Nat} (h : u < 10) : decimal u = [48 + u] := by
  unfold decimal
  split
  · subst_vars; rfl
  · rename_i hu
    rw [Nat.digits_of_lt 10 u hu h]
    rfl

theorem decimal_step {u : Nat} (h : 10 ≤ u) :
    decimal u = decimal (u / 10) ++ [48 + u % 10] := by
  have hu : u ≠ 0 := by omega
  have hq : u / 10 ≠ 0 := by omega
  unfold decimal
  rw [if_neg hu, if_neg hq, Nat.digits_def' (by norm_num) (by omega)]
  simp

theorem fmtDigits_eq (fuel : Nat) : ∀ (u : Nat) (acc : List Nat), u ≤ fuel →
    fmtDigits fuel u acc = decimal u ++ acc := by
  induction fuel with
  | zero =>
    intro u acc h
    have hu : u = 0 := by omega
    subst hu
    simp [fmtDigits, decimal_zero]
  | succ fuel ih =>
    intro u acc h
    unfold fmtDigits
    split
    · rename_i h10
      rw [ih (u / 10) _ (by omega), decimal_step h10]
      have hm : u - u / 10 * 10 = u % 10 := by omega
      simp [hm]
    · rw [decimal_of_lt_ten (by omega)]
      rfl

theorem fmtInteger_natCast (n : Nat) : fmtInteger (n : Int) = decimal n := by
  unfold fmtInteger
  rw [if_neg (by omega)]
  simpa using fmtDigits_eq n n [] (Nat.le_refl n)

theorem fmtInteger_of_neg {n : Int} (h : n < 0) : fmtInteger n = 45 :: decimal n.natAbs := by
  unfold fmtInteger
  rw [if_pos h]
  simpa using fmtDigits_eq n.natAbs n.natAbs [] (Nat.le_refl _)

theorem doPrintf_nil : doPrintf [] [] = .ok [] := by
  simp [doPrintf]

theorem doPrintf_literal (b : Nat) (rest : List Nat) (args : List Arg) (h : b ≠ 37) :
    doPrintf (b :: rest) args = (doPrintf rest args).map (b :: ·) := by
  conv_lhs => rw [doPrintf.eq_def]
  simp [h]

theorem doPrintf_d (rest : List Nat) (n : Int) (args : List Arg) :
    doPrintf (37 :: 100 :: rest) (Arg.int n :: args)
      = (doPrintf rest args).map (fmtInteger n ++ ·) := by
  simp [doPrintf]

theorem doPrintf_s (rest : List Nat) (s : List Nat) (args : List Arg) :
    doPrintf (37 :: 115 :: rest) (Arg.str s :: args)
      = (doPrintf rest args).map (s ++ ·) := by
  simp [doPrintf]

/-- A template made of `%d` and one final byte, after an introducer free of `'%'`. -/
theorem Fprintf_int_final (o : Output) (n : Int) (final : Nat) (hf : final ≠ 37) :
    Fprintf o (CSI ++ [37, 100, final]) [Arg.int n]
      = .ok ⟨o.tty ++ [[27, 91] ++ fmtInteger n ++ [final]]⟩ := by
  simp [Fprintf, Sprintf, CSI, doPrintf, hf, Except.map, Except.bind]

/-- A template made of two `%d` separated by `';'` and one final byte. -/
theorem Fprintf_int_int_final (o : Output) (a b : Int) (final : Nat) (hf : final ≠ 37) :
    Fprintf o (CSI ++ [37, 100, 59, 37, 100, final]) [Arg.int a, Arg.int b]
      = .ok ⟨o.tty ++ [[27, 91] ++ fmtInteger a ++ [59] ++ fmtInteger b ++ [final]]⟩ := by
  simp [Fprintf, Sprintf, CSI, doPrintf, hf, Except.map, Except.bind]

theorem decimal_ne_nil (n : Nat) : decimal n ≠ [] := by
  unfold decimal
  split
  · simp
  · rename_i h
    simp [Nat.digits_ne_nil_iff_ne_zero, h]

theorem decimal_bytes_are_digits (n : Nat) : ∀ b ∈ decimal n, 48 ≤ b ∧ b ≤ 57 := by
  intro b hb
  unfold decimal at hb
  split at hb
  · rw [List.mem_singleton] at hb
    subst hb
    exact ⟨by decide, by decide⟩
  · simp only [List.mem_map, List.mem_reverse] at hb
    obtain ⟨d, hd, rfl⟩ := hb
    have := Nat.digits_lt_base (by norm_num : 1 < 10) hd
    constructor <;> omega

theorem decimal_no_leading_zero {n : Nat} (h : n ≠ 0) : (decimal n).head? ≠ some 48 := by
  unfold decimal
  rw [if_neg h]
  have hne : Nat.digits 10 n ≠ [] := Nat.digits_ne_nil_iff_ne_zero.mpr h
  have hlast := Nat.getLast_digit_ne_zero 10 h
  rw [List.head?_map, List.head?_reverse, List.getLast?_eq_getLast _ hne]
  simp only [Option.map_some', ne_eq, Option.some.injEq]
  intro h0
  exact hlast (by omega)

/-! ## Single-parameter operations -/

/-- C1: for every integer `n ≥ 0`, each of `CursorUp`, `CursorDown`, `CursorForward`,
`CursorBack`, `CursorNextLine`, `CursorPrevLine`, `InsertLines` and `DeleteLines` returns
normally after appending exactly one write to the sink, whose bytes are `ESC [`, the
decimal rendering of `n`, and the final letter `A`, `B`, `C`, `D`, `E`, `F`, `L`, `M`
respectively. The rendering consists of digits only (no sign, no padding) and has no
leading zero unless `n = 0`. -/
theorem single_parameter_ops_write_csi_decimal_letter (o : Output) (n : Nat) :
    o.CursorUp n = .ok ⟨o.tty ++ [[27, 91] ++ decimal n ++ [65]]⟩ ∧
    o.CursorDown n = .ok ⟨o.tty ++ [[27, 91] ++ decimal n ++ [66]]⟩ ∧
    o.CursorForward n = .ok ⟨o.tty ++ [[27, 91] ++ decimal n ++ [67]]⟩ ∧
    o.CursorBack n = .ok ⟨o.tty ++ [[27, 91] ++ decimal n ++ [68]]⟩ ∧
    o.CursorNextLine n = .ok ⟨o.tty ++ [[27, 91] ++ decimal n ++ [69]]⟩ ∧
    o.CursorPrevLine n = .ok ⟨o.tty ++ [[27, 91] ++ decimal n ++ [70]]⟩ ∧
    o.InsertLines n = .ok ⟨o.tty ++ [[27, 91] ++ decimal n ++ [76]]⟩ ∧
    o.DeleteLines n = .ok ⟨o.tty ++ [[27, 91] ++ decimal n ++ [77]]⟩ ∧
    (∀ b ∈ decimal n, 48 ≤ b ∧ b ≤ 57) ∧
    (n ≠ 0 → (decimal n).head? ≠ some 48) ∧
    decimal n ≠ [] := by
  refine ⟨?_, ?_, ?_, ?_, ?_, ?_, ?_, ?_, decimal_bytes_are_digits n,
    decimal_no_leading_zero, decimal_ne_nil n⟩
  all_goals
    first
    | (simp only [Output.CursorUp, CursorUpSeq]
       rw [Fprintf_int_final o n _ (by decide), fmtInteger_natCast])
    | (simp only [Output.CursorDown, CursorDownSeq]
       rw [Fprintf_int_final o n _ (by decide), fmtInteger_natCast])
    | (simp only [Output.CursorForward, CursorForwardSeq]
       rw [Fprintf_int_final o n _ (by decide), fmtInteger_natCast])
    | (simp only [Output.CursorBack, CursorBackSeq]
       rw [Fprintf_int_final o n _ (by decide), fmtInteger_natCast])
    | (simp only [Output.CursorNextLine, CursorNextLineSeq]
       rw [Fprintf_int_final o n _ (by decide), fmtInteger_natCast])
    | (simp only [Output.CursorPrevLine, CursorPreviousLineSeq]
       rw [Fprintf_int_final o n _ (by decide), fmtInteger_natCast])
    | (simp only [Output.InsertLines, InsertLineSeq]
       rw [Fprintf_int_final o n _ (by decide), fmtInteger_natCast])
    | (simp only [Output.DeleteLines, DeleteLineSeq]
       rw [Fprintf_int_final o n _ (by decide), fmtInteger_natCast])

/-! ## Absolute positioning -/

/-- C2: for all positive `row` and `col`, `MoveCursor row col` returns normally after
appending exactly one write to the sink, whose bytes are `ESC [`, the decimal rendering
of `row`, `';'`, the decimal rendering of `col`, and `'H'`: the row comes first. -/
theorem moveCursor_writes_row_then_column (o : Output) (row col : Nat)
    (_hrow : 0 < row) (_hcol : 0 < col) :
    o.MoveCursor row col
      = .ok ⟨o.tty ++ [[27, 91] ++ decimal row ++ [59] ++ decimal col ++ [72]]⟩ := by
  simp only [Output.MoveCursor, CursorPositionSeq]
  rw [Fprintf_int_int_final o row col _ (by decide), fmtInteger_natCast, fmtInteger_natCast]

theorem moveCursor_writes_row_then_column_witness :
    0 < 3 ∧ 0 < 10 ∧
    (Output.mk []).MoveCursor ((3 : Nat) : Int) ((10 : Nat) : Int)
      = .ok ⟨[] ++ [[27, 91] ++ decimal 3 ++ [59] ++ decimal 10 ++ [72]]⟩ :=
  ⟨by decide, by decide,
    moveCursor_writes_row_then_column (Output.mk []) 3 10 (by decide) (by decide)⟩

/-! ## Composite operations -/

theorem Sprintf_eraseLine_two : Sprintf (CSI ++ EraseLineSeq) [Arg.int 2] = .ok [27, 91, 50, 75] := by
  decide

theorem Sprintf_cursorUp_one : Sprintf (CSI ++ CursorUpSeq) [Arg.int 1] = .ok [27, 91, 49, 65] := by
  decide

theorem Repeat_of_fits (s : List Nat) (n : Nat) (h : s.length * n ≤ maxInt) :
    Repeat s n = .ok (List.replicate n s).flatten := by
  unfold Repeat
  have h1 : ¬ ((n : Int) < 0) := by omega
  have h2 : ¬ ((maxInt : Int) < (s.length : Int) * (n : Int)) := by
    have : ((s.length * n : Nat) : Int) ≤ (maxInt : Int) := by exact_mod_cast h
    push_cast at this
    omega
  rw [if_neg h1, if_neg h2]
  simp

theorem Repeat_of_neg (s : List Nat) {n : Int} (h : n < 0) :
    Repeat s n = .error .negativeRepeatCount := by
  unfold Repeat
  rw [if_pos h]

theorem Repeat_of_overflow (s : List Nat) {n : Int} (h0 : 0 ≤ n)
    (h : (maxInt : Int) < (s.length : Int) * n) : Repeat s n = .error .repeatOverflow := by
  unfold Repeat
  rw [if_neg (by omega), if_pos h]

theorem ClearLines_of_fits (o : Output) (n : Nat) (h : 8 * n ≤ maxInt) :
    o.ClearLines n
      = .ok ⟨o.tty ++ [[27, 91, 50, 75]
          ++ (List.replicate n ([27, 91, 49, 65] ++ [27, 91, 50, 75])).flatten]⟩ := by
  unfold Output.ClearLines
  rw [Sprintf_eraseLine_two, Sprintf_cursorUp_one]
  simp only [Except.bind]
  rw [Repeat_of_fits _ n (by simpa [Nat.mul_comm] using h)]
  rfl

theorem ClearLines_of_neg (o : Output) {n : Int} (h : n < 0) :
    o.ClearLines n = .error .negativeRepeatCount := by
  unfold Output.ClearLines
  rw [Sprintf_eraseLine_two, Sprintf_cursorUp_one]
  simp only [Except.bind]
  rw [Repeat_of_neg _ h]

theorem ClearLines_of_overflow (o : Output) {n : Int} (h0 : 0 ≤ n)
    (h : (maxInt : Int) < 8 * n) : o.ClearLines n = .error .repeatOverflow := by
  unfold Output.ClearLines
  rw [Sprintf_eraseLine_two, Sprintf_cursorUp_one]
  simp only [Except.bind]
  rw [Repeat_of_overflow _ h0 (by simpa using h)]

theorem MoveCursor_eq (o : Output) (row column : Int) :
    o.MoveCursor row column
      = .ok ⟨o.tty ++ [[27, 91] ++ fmtInteger row ++ [59] ++ fmtInteger column ++ [72]]⟩ := by
  simp only [Output.MoveCursor, CursorPositionSeq]
  rw [Fprintf_int_int_final o row column _ (by decide)]

theorem ClearScreen_eq (o : Output) :
    o.ClearScreen = .ok ⟨o.tty ++ [[27, 91, 50, 74], [27, 91, 49, 59, 49, 72]]⟩ := by
  simp only [Output.ClearScreen, EraseDisplaySeq]
  rw [Fprintf_int_final o 2 _ (by decide)]
  simp only [Except.bind]
  rw [MoveCursor_eq]
  simp
  exact ⟨by decide, by decide⟩

/-- C3 (as stated, refuted): with a 64-bit `int`, `ClearLines (2 ^ 60)` performs no write:
the repeated part would be `8 * 2 ^ 60 = 2 ^ 63` bytes long, `strings.Repeat` panics on the
length overflow, and the call does not return normally. -/
theorem clearLines_large_count_panics :
    (Output.mk []).ClearLines (2 ^ 60) = .error .repeatOverflow ∧
    ¬ ((Output.mk []).ClearLines (2 ^ 60)
        = .ok ⟨[[27, 91, 50, 75]
            ++ (List.replicate (2 ^ 60) ([27, 91, 49, 65] ++ [27, 91, 50, 75])).flatten]⟩) := by
  have h : (Output.mk []).ClearLines (2 ^ 60) = .error .repeatOverflow := by decide
  exact ⟨h, by rw [h]; exact fun h' => nomatch h'⟩

/-- C3 (amended): for every `n ≥ 0` whose repeated part fits in an `int`
(`8 * n ≤ maxInt`), `ClearLines n` returns normally after appending exactly one write,
whose bytes are the erase-line sequence `ESC [ 2 K` followed by `n` repetitions of the
cursor-up-1 sequence `ESC [ 1 A` followed by the erase-line sequence; for `n = 0` the
write is exactly the erase-line sequence. -/
theorem clearLines_single_concatenated_write (o : Output) (n : Nat) (h : 8 * n ≤ maxInt) :
    o.ClearLines n
      = .ok ⟨o.tty ++ [[27, 91, 50, 75]
          ++ (List.replicate n ([27, 91, 49, 65] ++ [27, 91, 50, 75])).flatten]⟩ ∧
    o.ClearLines 0 = .ok ⟨o.tty ++ [[27, 91, 50, 75]]⟩ := by
  refine ⟨ClearLines_of_fits o n h, ?_⟩
  have h0 := ClearLines_of_fits o 0 (by decide)
  simpa using h0

theorem clearLines_single_concatenated_write_witness :
    8 * 2 ≤ maxInt ∧
    (Output.mk []).ClearLines ((2 : Nat) : Int)
      = .ok ⟨[] ++ [[27, 91, 50, 75]
          ++ (List.replicate 2 ([27, 91, 49, 65] ++ [27, 91, 50, 75])).flatten]⟩ :=
  ⟨by decide, (clearLines_single_concatenated_write (Output.mk []) 2 (by decide)).1⟩

/-- C4: `ClearScreen` returns normally after appending exactly two writes to the sink, in
this order: first the erase-display sequence with mode 2, `ESC [ 2 J`, then the bytes
`MoveCursor 1 1` writes, `ESC [ 1 ; 1 H`. They are two separate writes. -/
theorem clearScreen_two_writes_in_order (o : Output) :
    o.ClearScreen = .ok ⟨o.tty ++ [[27, 91, 50, 74], [27, 91, 49, 59, 49, 72]]⟩ ∧
    o.MoveCursor 1 1 = .ok ⟨o.tty ++ [[27, 91, 49, 59, 49, 72]]⟩ := by
  refine ⟨ClearScreen_eq o, ?_⟩
  rw [MoveCursor_eq]
  rfl

/-! ## Session -/

/-- C5: for every string `title`, `SetWindowTitle title` returns normally after appending
exactly one write, whose bytes are `ESC ] 2 ;`, then `title` unchanged, then a single
`BEL`; in particular the title `hello` gives `ESC ] 2 ; h e l l o BEL`. -/
theorem setWindowTitle_writes_title_verbatim (o : Output) (title : List Nat) :
    o.SetWindowTitle title = .ok ⟨o.tty ++ [[27, 93, 50, 59] ++ title ++ [7]]⟩ ∧
    o.SetWindowTitle [104, 101, 108, 108, 111]
      = .ok ⟨o.tty ++ [[27, 93, 50, 59, 104, 101, 108, 108, 111, 7]]⟩ := by
  have key : ∀ t : List Nat,
      o.SetWindowTitle t = .ok ⟨o.tty ++ [[27, 93, 50, 59] ++ t ++ [7]]⟩ := by
    intro t
    simp [Output.SetWindowTitle, Fprintf, Sprintf, OSC, SetWindowTitleSeq, doPrintf,
      Except.map, Except.bind]
  exact ⟨key title, key _⟩

/-! ## Round trip of the cursor position -/

theorem readDigits_append (xs ys : List Nat) : ∀ acc : Nat,
    readDigits (xs ++ ys) acc = (readDigits xs acc).bind (readDigits ys) := by
  induction xs with
  | nil => intro acc; simp [readDigits]
  | cons b bs ih =>
    intro acc
    simp only [List.cons_append, readDigits]
    split
    · exact ih _
    · rfl

theorem readDigits_decimal : ∀ n : Nat, readDigits (decimal n) 0 = some n := by
  intro n
  induction n using Nat.strong_induction_on with
  | _ n ih =>
    by_cases h : 10 ≤ n
    · rw [decimal_step h, readDigits_append, ih (n / 10) (by omega)]
      have hd : 48 ≤ 48 + n % 10 ∧ 48 + n % 10 ≤ 57 := by omega
      simp only [Option.some_bind, readDigits, if_pos hd]
      congr 1
      omega
    · rw [decimal_of_lt_ten (by omega)]
      have hd : 48 ≤ 48 + n ∧ 48 + n ≤ 57 := by omega
      simp only [readDigits, if_pos hd]
      congr 1
      omega

theorem readDecimal_decimal (n : Nat) : readDecimal (decimal n) = some n := by
  unfold readDecimal
  rw [if_neg (decimal_ne_nil n), readDigits_decimal]

theorem parseCursorPosition_frame (r c : List Nat) (hr : ∀ b ∈ r, b ≠ 59) :
    parseCursorPosition ([27, 91] ++ r ++ [59] ++ c ++ [72])
      = (readDecimal r).bind fun row => (readDecimal c).map fun col => (row, col) := by
  have hw : [27, 91] ++ r ++ [59] ++ c ++ [72] = 27 :: 91 :: ((r ++ 59 :: c) ++ [72]) := by
    simp
  have hp : ∀ b ∈ r, (fun b : Nat => b != 59) b = true := by
    intro b hb
    simpa using hr b hb
  unfold parseCursorPosition
  rw [hw]
  have h1 : (27 :: 91 :: ((r ++ 59 :: c) ++ [72])).take 2 = [27, 91] := rfl
  have h2 : (27 :: 91 :: ((r ++ 59 :: c) ++ [72])).getLast? = some 72 := by
    rw [show 27 :: 91 :: ((r ++ 59 :: c) ++ [72]) = (27 :: 91 :: (r ++ 59 :: c)) ++ [72] from rfl,
      List.getLast?_concat]
  have h3 : ((27 :: 91 :: ((r ++ 59 :: c) ++ [72])).drop 2).dropLast = r ++ 59 :: c := by
    show ((r ++ 59 :: c) ++ [72]).dropLast = r ++ 59 :: c
    rw [List.dropLast_concat]
  rw [if_pos ⟨h1, h2⟩, h3, List.dropWhile_append_of_pos hp, List.takeWhile_append_of_pos hp]
  simp

/-- C6: the parser that strips the leading `ESC [` and the trailing `'H'`, splits at the
`';'` and reads both parts as decimal numbers recovers exactly `(row, col)` from the bytes
`MoveCursor row col` writes, for all positive `row` and `col`; consequently two positive
pairs that make `MoveCursor` write the same bytes are equal. -/
theorem moveCursor_round_trip (o : Output) (row col row' col' : Nat)
    (_hrow : 0 < row) (_hcol : 0 < col) (_hrow' : 0 < row') (_hcol' : 0 < col') :
    (∃ w, o.MoveCursor row col = .ok ⟨o.tty ++ [w]⟩ ∧
      parseCursorPosition w = some (row, col)) ∧
    (o.MoveCursor row col = o.MoveCursor row' col' → row = row' ∧ col = col') := by
  have enc : ∀ a b : Nat, 0 < a → 0 < b → o.MoveCursor a b
      = .ok ⟨o.tty ++ [[27, 91] ++ decimal a ++ [59] ++ decimal b ++ [72]]⟩ :=
    fun a b ha hb => by
      simp only [Output.MoveCursor, CursorPositionSeq]
      rw [Fprintf_int_int_final o a b _ (by decide), fmtInteger_natCast, fmtInteger_natCast]
  have dec : ∀ a b : Nat,
      parseCursorPosition ([27, 91] ++ decimal a ++ [59] ++ decimal b ++ [72])
        = some (a, b) := by
    intro a b
    rw [parseCursorPosition_frame _ _ (fun x hx => by
      have := decimal_bytes_are_digits a x hx
      omega), readDecimal_decimal, readDecimal_decimal]
    rfl
  refine ⟨⟨_, enc row col _hrow _hcol, dec row col⟩, ?_⟩
  intro h
  rw [enc row col _hrow _hcol, enc row' col' _hrow' _hcol'] at h
  have hw : [27, 91] ++ decimal row ++ [59] ++ decimal col ++ [72]
      = [27, 91] ++ decimal row' ++ [59] ++ decimal col' ++ [72] := by
    have h1 := Except.ok.inj h
    have h2 := congrArg Output.tty h1
    exact List.singleton_inj.mp (List.append_cancel_left h2)
  have hp := congrArg parseCursorPosition hw
  rw [dec, dec] at hp
  have := Option.some.inj hp
  exact ⟨congrArg Prod.fst this, congrArg Prod.snd this⟩

theorem moveCursor_round_trip_witness :
    0 < 3 ∧ 0 < 10 ∧ 0 < 31 ∧ 0 < 0 + 1 ∧
    ((∃ w, (Output.mk []).MoveCursor ((3 : Nat) : Int) ((10 : Nat) : Int) = .ok ⟨[] ++ [w]⟩ ∧
        parseCursorPosition w = some (3, 10)) ∧
      ((Output.mk []).MoveCursor ((3 : Nat) : Int) ((10 : Nat) : Int)
          = (Output.mk []).MoveCursor ((31 : Nat) : Int) ((0 + 1 : Nat) : Int)
        → 3 = 31 ∧ 10 = 0 + 1)) :=
  ⟨by decide, by decide, by decide, by decide,
    moveCursor_round_trip (Output.mk []) 3 10 31 (0 + 1)
      (by decide) (by decide) (by decide) (by decide)⟩

/-! ## Mouse modes -/

theorem decimal_9 : decimal 9 = [57] := by
  rw [← fmtInteger_natCast]; decide

theorem decimal_1000 : decimal 1000 = [49, 48, 48, 48] := by
  rw [← fmtInteger_natCast]; decide

theorem decimal_1001 : decimal 1001 = [49, 48, 48, 49] := by
  rw [← fmtInteger_natCast]; decide

theorem decimal_1002 : decimal 1002 = [49, 48, 48, 50] := by
  rw [← fmtInteger_natCast]; decide

theorem decimal_1003 : decimal 1003 = [49, 48, 48, 51] := by
  rw [← fmtInteger_natCast]; decide

/-- C7: each of the five mouse-tracking modes has an enable operation writing
`ESC [ ?`, the mode number, `'h'` and a disable operation writing `ESC [ ?`, the same
number, `'l'`: 9, 1000, 1001, 1002 and 1003 for press, mouse, hilite, cell motion and all
motion. Each call appends exactly one write whatever the sink already holds, so the five
enable operations called one after another append the five enable sequences in call
order. -/
theorem mouse_modes_write_private_mode_pairs (o : Output) :
    o.EnableMousePress = .ok ⟨o.tty ++ [[27, 91, 63] ++ decimal 9 ++ [104]]⟩ ∧
    o.DisableMousePress = .ok ⟨o.tty ++ [[27, 91, 63] ++ decimal 9 ++ [108]]⟩ ∧
    o.EnableMouse = .ok ⟨o.tty ++ [[27, 91, 63] ++ decimal 1000 ++ [104]]⟩ ∧
    o.DisableMouse = .ok ⟨o.tty ++ [[27, 91, 63] ++ decimal 1000 ++ [108]]⟩ ∧
    o.EnableMouseHilite = .ok ⟨o.tty ++ [[27, 91, 63] ++ decimal 1001 ++ [104]]⟩ ∧
    o.DisableMouseHilite = .ok ⟨o.tty ++ [[27, 91, 63] ++ decimal 1001 ++ [108]]⟩ ∧
    o.EnableMouseCellMotion = .ok ⟨o.tty ++ [[27, 91, 63] ++ decimal 1002 ++ [104]]⟩ ∧
    o.DisableMouseCellMotion = .ok ⟨o.tty ++ [[27, 91, 63] ++ decimal 1002 ++ [108]]⟩ ∧
    o.EnableMouseAllMotion = .ok ⟨o.tty ++ [[27, 91, 63] ++ decimal 1003 ++ [104]]⟩ ∧
    o.DisableMouseAllMotion = .ok ⟨o.tty ++ [[27, 91, 63] ++ decimal 1003 ++ [108]]⟩ ∧
    ((((o.EnableMousePress.bind Output.EnableMouse).bind Output.EnableMouseHilite).bind
        Output.EnableMouseCellMotion).bind Output.EnableMouseAllMotion
      = .ok ⟨o.tty ++ [[27, 91, 63, 57, 104], [27, 91, 63, 49, 48, 48, 48, 104],
          [27, 91, 63, 49, 48, 48, 49, 104], [27, 91, 63, 49, 48, 48, 50, 104],
          [27, 91, 63, 49, 48, 48, 51, 104]]⟩) ∧
    List.flatten [[27, 91, 63, 57, 104], [27, 91, 63, 49, 48, 48, 48, 104],
        [27, 91, 63, 49, 48, 48, 49, 104], [27, 91, 63, 49, 48, 48, 50, 104],
        [27, 91, 63, 49, 48, 48, 51, 104]]
      = [27, 91, 63] ++ decimal 9 ++ [104] ++ ([27, 91, 63] ++ decimal 1000 ++ [104])
        ++ ([27, 91, 63] ++ decimal 1001 ++ [104]) ++ ([27, 91, 63] ++ decimal 1002 ++ [104])
        ++ ([27, 91, 63] ++ decimal 1003 ++ [104]) := by
  rw [decimal_9, decimal_1000, decimal_1001, decimal_1002, decimal_1003]
  refine ⟨rfl, rfl, rfl, rfl, rfl, rfl, rfl, rfl, rfl, rfl, ?_, rfl⟩
  simp [Output.EnableMousePress, Output.EnableMouse, Output.EnableMouseHilite,
    Output.EnableMouseCellMotion, Output.EnableMouseAllMotion, Fprint, Except.bind, CSI,
    EnableMousePressSeq, EnableMouseSeq, EnableMouseHiliteSeq, EnableMouseCellMotionSeq,
    EnableMouseAllMotionSeq]

/-! ## Writes per call and normal completion -/

theorem Fprint_eq (o : Output) (s : List Nat) : Fprint o s = .ok ⟨o.tty ++ [s]⟩ := rfl

theorem Fprintf_str_bel (o : Output) (code s : List Nat) (hc : ∀ b ∈ code, b ≠ 37) :
    Fprintf o (OSC ++ (code ++ [59, 37, 115, 7])) [Arg.str s]
      = .ok ⟨o.tty ++ [[27, 93] ++ code ++ [59] ++ s ++ [7]]⟩ := by
  have hfmt : ∀ (code : List Nat), (∀ b ∈ code, b ≠ 37) →
      doPrintf (code ++ [59, 37, 115, 7]) [Arg.str s] = .ok (code ++ [59] ++ s ++ [7]) := by
    intro code
    induction code with
    | nil => intro _; simp [doPrintf, Except.map]
    | cons b bs ih =>
      intro h
      rw [List.cons_append, doPrintf_literal _ _ _ (h b (by simp)),
        ih (fun x hx => h x (by simp [hx]))]
      rfl
  have h2 := hfmt (27 :: 93 :: code) (by
    intro b hb
    simp only [List.mem_cons] at hb
    rcases hb with rfl | rfl | hb
    · decide
    · decide
    · exact hc b hb)
  simp only [Fprintf, Sprintf, OSC]
  rw [show [27, 93] ++ (code ++ [59, 37, 115, 7]) = (27 :: 93 :: code) ++ [59, 37, 115, 7]
    from rfl, h2]
  simp [Except.bind]

/-- The result of every call other than `ClearLines`: the writes appended. -/
theorem Op.run_total (rs : List Nat) (op : Op) (o : Output) (h : ∀ n, op ≠ .ClearLines n) :
    ∃ ws, op.run rs o = .ok ⟨o.tty ++ ws⟩ ∧
      ws.length = (if op = .ClearScreen then 2 else 1) := by
  cases op
  case ClearLines n => exact absurd rfl (h n)
  case ClearScreen => exact ⟨_, ClearScreen_eq o, rfl⟩
  case MoveCursor r c => exact ⟨_, Fprintf_int_int_final o r c 72 (by decide), rfl⟩
  case ChangeScrollingRegion t b => exact ⟨_, Fprintf_int_int_final o t b 114 (by decide), rfl⟩
  case CursorUp n => exact ⟨_, Fprintf_int_final o n 65 (by decide), rfl⟩
  case CursorDown n => exact ⟨_, Fprintf_int_final o n 66 (by decide), rfl⟩
  case CursorForward n => exact ⟨_, Fprintf_int_final o n 67 (by decide), rfl⟩
  case CursorBack n => exact ⟨_, Fprintf_int_final o n 68 (by decide), rfl⟩
  case CursorNextLine n => exact ⟨_, Fprintf_int_final o n 69 (by decide), rfl⟩
  case CursorPrevLine n => exact ⟨_, Fprintf_int_final o n 70 (by decide), rfl⟩
  case InsertLines n => exact ⟨_, Fprintf_int_final o n 76 (by decide), rfl⟩
  case DeleteLines n => exact ⟨_, Fprintf_int_final o n 77 (by decide), rfl⟩
  case SetForegroundColor c =>
    exact ⟨_, Fprintf_str_bel o [49, 48] c.rendering (by decide), rfl⟩
  case SetBackgroundColor c =>
    exact ⟨_, Fprintf_str_bel o [49, 49] c.rendering (by decide), rfl⟩
  case SetCursorColor c =>
    exact ⟨_, Fprintf_str_bel o [49, 50] c.rendering (by decide), rfl⟩
  case SetWindowTitle t => exact ⟨_, Fprintf_str_bel o [50] t (by decide), rfl⟩
  all_goals exact ⟨_, rfl, rfl⟩

/-- C8 (as stated, refuted): `ClearScreen` does not keep to one write per call. On an
empty sink it returns with two writes received. -/
theorem clearScreen_exceeds_one_write :
    ¬ (∀ o' : Output, (Output.mk []).ClearScreen = .ok o' →
        o'.tty.length ≤ (Output.mk []).tty.length + 1) := by
  intro h
  have h2 := h ⟨[[27, 91, 50, 74], [27, 91, 49, 59, 49, 72]]⟩ (by decide)
  exact absurd h2 (by decide)

/-- C8 (amended): every call whose sequence can be built (any call other than `ClearLines`,
and `ClearLines n` with `0 ≤ n` and `8 * n ≤ maxInt`) returns normally and appends to the
sink exactly one write, except `ClearScreen`, which appends exactly two; the single write
of `ClearLines n` holds the whole concatenated sequence. -/
theorem writes_per_call (rs : List Nat) (op : Op) (o : Output)
    (h : ∀ n : Int, op = .ClearLines n → 0 ≤ n ∧ 8 * n ≤ (maxInt : Int)) :
    ∃ ws, op.run rs o = .ok ⟨o.tty ++ ws⟩ ∧
      ws.length = (if op = .ClearScreen then 2 else 1) ∧
      (∀ n : Nat, op = .ClearLines n →
        ws = [[27, 91, 50, 75]
          ++ (List.replicate n ([27, 91, 49, 65] ++ [27, 91, 50, 75])).flatten]) := by
  by_cases hc : ∃ n : Int, op = .ClearLines n
  · obtain ⟨n, rfl⟩ := hc
    obtain ⟨h0, h8⟩ := h n rfl
    obtain ⟨m, rfl⟩ := Int.eq_ofNat_of_zero_le h0
    have hm : 8 * m ≤ maxInt := by exact_mod_cast h8
    refine ⟨_, ClearLines_of_fits o m hm, rfl, ?_⟩
    intro k hk
    have hk' : (m : Int) = (k : Int) := Op.ClearLines.inj hk
    have : m = k := by exact_mod_cast hk'
    subst this
    rfl
  · have hne : ∀ n, op ≠ .ClearLines n := fun n hn => hc ⟨n, hn⟩
    obtain ⟨ws, hrun, hlen⟩ := Op.run_total rs op o hne
    exact ⟨ws, hrun, hlen, fun n hn => absurd hn (hne n)⟩

theorem writes_per_call_witness :
    (∀ n : Int, Op.ClearLines 2 = .ClearLines n → 0 ≤ n ∧ 8 * n ≤ (maxInt : Int)) ∧
    ∃ ws, (Op.ClearLines 2).run [48] (Output.mk []) = .ok ⟨[] ++ ws⟩ ∧
      ws.length = (if Op.ClearLines 2 = .ClearScreen then 2 else 1) ∧
      (∀ n : Nat, Op.ClearLines 2 = .ClearLines n →
        ws = [[27, 91, 50, 75]
          ++ (List.replicate n ([27, 91, 49, 65] ++ [27, 91, 50, 75])).flatten]) :=
  have hr : ∀ n : Int, Op.ClearLines 2 = .ClearLines n → 0 ≤ n ∧ 8 * n ≤ (maxInt : Int) := by
    intro n hn
    have h2 : (2 : Int) = n := Op.ClearLines.inj hn
    subst h2
    decide
  ⟨hr, writes_per_call [48] (Op.ClearLines 2) (Output.mk []) hr⟩

/-- C9 (as stated, refuted): `ClearLines (-1)` does not complete normally, whatever the
sink: `strings.Repeat` panics on the negative count. -/
theorem clearLines_negative_count_panics :
    (Output.mk []).ClearLines (-1) = .error .negativeRepeatCount ∧
    ¬ ∃ o' : Output, (Output.mk []).ClearLines (-1) = .ok o' := by
  have h : (Output.mk []).ClearLines (-1) = .error .negativeRepeatCount := by decide
  refine ⟨h, ?_⟩
  rintro ⟨o', ho⟩
  rw [h] at ho
  exact nomatch ho

/-- C9 (amended): a call completes normally for every value of its parameters, except
that `ClearLines n` completes normally exactly when `0 ≤ n` and the repeated part fits in
an `int` (`8 * n ≤ maxInt`); otherwise `strings.Repeat` panics. -/
theorem call_completes_iff (rs : List Nat) (op : Op) (o : Output) :
    (∃ o' : Output, op.run rs o = .ok o') ↔
      ∀ n : Int, op = .ClearLines n → 0 ≤ n ∧ 8 * n ≤ (maxInt : Int) := by
  constructor
  · rintro ⟨o', ho⟩ n rfl
    by_cases h0 : n < 0
    · have hp : (Op.ClearLines n).run rs o = .error .negativeRepeatCount :=
        ClearLines_of_neg o h0
      rw [hp] at ho
      exact nomatch ho
    · by_cases h8 : (maxInt : Int) < 8 * n
      · have hp : (Op.ClearLines n).run rs o = .error .repeatOverflow :=
          ClearLines_of_overflow o (by omega) h8
        rw [hp] at ho
        exact nomatch ho
      · exact ⟨by omega, by omega⟩
  · intro h
    by_cases hc : ∃ n : Int, op = .ClearLines n
    · obtain ⟨n, rfl⟩ := hc
      obtain ⟨h0, h8⟩ := h n rfl
      obtain ⟨m, rfl⟩ := Int.eq_ofNat_of_zero_le h0
      exact ⟨_, ClearLines_of_fits o m (by exact_mod_cast h8)⟩
    · obtain ⟨ws, hrun, _⟩ := Op.run_total rs op o (fun n hn => hc ⟨n, hn⟩)
      exact ⟨_, hrun⟩

theorem call_completes_iff_witness :
    (∃ o' : Output, (Op.CursorUp (-5)).run [48] (Output.mk []) = .ok o') :=
  (call_completes_iff [48] (Op.CursorUp (-5)) (Output.mk [])).mpr
    (fun _ hn => nomatch hn)

/-! ## Colours -/

/-- C10: for every colour `c` with string rendering `s`, `SetForegroundColor c`,
`SetBackgroundColor c` and `SetCursorColor c` each return normally after appending exactly
one write: `ESC ]`, then `10;`, `11;` and `12;` respectively, then `s` unchanged, then a
single `BEL`. The three writes differ only in that numeric code. -/
theorem color_ops_write_osc_code_rendering_bel (o : Output) (c : Color) :
    o.SetForegroundColor c
      = .ok ⟨o.tty ++ [[27, 93] ++ [49, 48] ++ [59] ++ c.rendering ++ [7]]⟩ ∧
    o.SetBackgroundColor c
      = .ok ⟨o.tty ++ [[27, 93] ++ [49, 49] ++ [59] ++ c.rendering ++ [7]]⟩ ∧
    o.SetCursorColor c
      = .ok ⟨o.tty ++ [[27, 93] ++ [49, 50] ++ [59] ++ c.rendering ++ [7]]⟩ :=
  ⟨Fprintf_str_bel o [49, 48] c.rendering (by decide),
    Fprintf_str_bel o [49, 49] c.rendering (by decide),
    Fprintf_str_bel o [49, 50] c.rendering (by decide)⟩

/-! ## Scrolling region -/

theorem ChangeScrollingRegion_eq (o : Output) (top bottom : Int) :
    o.ChangeScrollingRegion top bottom
      = .ok ⟨o.tty ++ [[27, 91] ++ fmtInteger top ++ [59] ++ fmtInteger bottom ++ [114]]⟩ := by
  simp only [Output.ChangeScrollingRegion, ChangeScrollingRegionSeq]
  rw [Fprintf_int_int_final o top bottom _ (by decide)]

/-- C11: for all non-negative integers `top` and `bottom`, `ChangeScrollingRegion top
bottom` returns normally after appending exactly one write, whose bytes are `ESC [`, the
decimal rendering of `top`, `';'`, the decimal rendering of `bottom`, and `'r'`: `top`
is written first, `bottom` second. -/
theorem changeScrollingRegion_writes_top_then_bottom (o : Output) (top bottom : Nat) :
    o.ChangeScrollingRegion top bottom
      = .ok ⟨o.tty ++ [[27, 91] ++ decimal top ++ [59] ++ decimal bottom ++ [114]]⟩ := by
  rw [ChangeScrollingRegion_eq, fmtInteger_natCast, fmtInteger_natCast]

/-! ## Screen buffer and cursor constants -/

theorem decimal_47 : decimal 47 = [52, 55] := by
  rw [← fmtInteger_natCast]; decide

theorem decimal_1049 : decimal 1049 = [49, 48, 52, 57] := by
  rw [← fmtInteger_natCast]; decide

theorem decimal_25 : decimal 25 = [50, 53] := by
  rw [← fmtInteger_natCast]; decide

/-- C12: each zero-parameter screen-buffer and cursor operation returns normally after
appending exactly one write, `ESC [` followed by its catalogue constant: `SaveScreen`
`?47h`, `RestoreScreen` `?47l`, `AltScreen` `?1049h`, `ExitAltScreen` `?1049l`,
`ShowCursor` `?25h`, `HideCursor` `?25l`, `SaveCursorPosition` `s`,
`RestoreCursorPosition` `u`. In each private-mode pair both members carry the same mode
number (47, 1049, 25) and differ only in the final byte, `'h'` against `'l'`. -/
theorem screen_and_cursor_ops_write_constants (o : Output) :
    o.SaveScreen = .ok ⟨o.tty ++ [[27, 91] ++ SaveScreenSeq]⟩ ∧
    o.RestoreScreen = .ok ⟨o.tty ++ [[27, 91] ++ RestoreScreenSeq]⟩ ∧
    o.AltScreen = .ok ⟨o.tty ++ [[27, 91] ++ AltScreenSeq]⟩ ∧
    o.ExitAltScreen = .ok ⟨o.tty ++ [[27, 91] ++ ExitAltScreenSeq]⟩ ∧
    o.ShowCursor = .ok ⟨o.tty ++ [[27, 91] ++ ShowCursorSeq]⟩ ∧
    o.HideCursor = .ok ⟨o.tty ++ [[27, 91] ++ HideCursorSeq]⟩ ∧
    o.SaveCursorPosition = .ok ⟨o.tty ++ [[27, 91] ++ SaveCursorPositionSeq]⟩ ∧
    o.RestoreCursorPosition = .ok ⟨o.tty ++ [[27, 91] ++ RestoreCursorPositionSeq]⟩ ∧
    SaveScreenSeq = [63] ++ decimal 47 ++ [104] ∧
    RestoreScreenSeq = [63] ++ decimal 47 ++ [108] ∧
    AltScreenSeq = [63] ++ decimal 1049 ++ [104] ∧
    ExitAltScreenSeq = [63] ++ decimal 1049 ++ [108] ∧
    ShowCursorSeq = [63] ++ decimal 25 ++ [104] ∧
    HideCursorSeq = [63] ++ decimal 25 ++ [108] ∧
    SaveCursorPositionSeq = [115] ∧
    RestoreCursorPositionSeq = [117] := by
  rw [decimal_47, decimal_1049, decimal_25]
  exact ⟨rfl, rfl, rfl, rfl, rfl, rfl, rfl, rfl, rfl, rfl, rfl, rfl, rfl, rfl, rfl, rfl⟩

/-! ## Cursor forward -/

theorem decimal_head_ge (n : Nat) : ∃ d ds, decimal n = d :: ds ∧ 48 ≤ d := by
  cases hd : decimal n with
  | nil => exact absurd hd (decimal_ne_nil n)
  | cons d ds =>
    refine ⟨d, ds, rfl, ?_⟩
    have := decimal_bytes_are_digits n d (by rw [hd]; simp)
    omega

theorem single_write_inj {o : Output} {w w' : List Nat}
    (h : (Except.ok ⟨o.tty ++ [w]⟩ : Except Fault Output) = .ok ⟨o.tty ++ [w']⟩) : w = w' := by
  have h1 := Except.ok.inj h
  have h2 := congrArg Output.tty h1
  exact List.singleton_inj.mp (List.append_cancel_left h2)

theorem CursorUp_eq (o : Output) (n : Int) :
    o.CursorUp n = .ok ⟨o.tty ++ [[27, 91] ++ fmtInteger n ++ [65]]⟩ := by
  simp only [Output.CursorUp, CursorUpSeq]
  rw [Fprintf_int_final o n _ (by decide)]

theorem CursorForward_eq (o : Output) (n : Int) :
    o.CursorForward n = .ok ⟨o.tty ++ [[27, 91] ++ fmtInteger n ++ [67]]⟩ := by
  simp only [Output.CursorForward, CursorForwardSeq]
  rw [Fprintf_int_final o n _ (by decide)]

/-- C16 (as stated, refuted): `CursorForward 1` writes `ESC [ 1 C`, not the cursor-up
sequence `ESC [ 1 A` that `CursorUp 1` writes. -/
theorem cursorForward_is_not_cursorUp :
    (Output.mk []).CursorForward 1 = .ok ⟨[[27, 91, 49, 67]]⟩ ∧
    (Output.mk []).CursorUp 1 = .ok ⟨[[27, 91, 49, 65]]⟩ ∧
    (Output.mk []).CursorForward 1 ≠ (Output.mk []).CursorUp 1 := by
  decide

/-- C16 (amended): for every `n ≥ 0`, `CursorForward n` writes the cursor-forward
sequence `ESC [`, the decimal rendering of `n`, `'C'`; these are never the bytes
`CursorUp n` writes, which end in `'A'`. -/
theorem cursorForward_writes_forward_sequence (o : Output) (n : Nat) :
    o.CursorForward n = .ok ⟨o.tty ++ [[27, 91] ++ decimal n ++ [67]]⟩ ∧
    o.CursorUp n = .ok ⟨o.tty ++ [[27, 91] ++ decimal n ++ [65]]⟩ ∧
    o.CursorForward n ≠ o.CursorUp n := by
  have hf := CursorForward_eq o n
  have hu := CursorUp_eq o n
  rw [fmtInteger_natCast] at hf hu
  refine ⟨hf, hu, ?_⟩
  rw [hf, hu]
  intro h
  have hw := single_write_inj h
  have h3 : [67] = [65] := by
    have := List.append_cancel_left hw
    exact this
  exact absurd h3 (by decide)

/-! ## Erase-line constants -/

/-- C18: the three explicit erase-line constants are the instances of the parameterised
erase-line template: `ClearLineRight`, `ClearLineLeft` and `ClearLine` write exactly what
`CSI + EraseLineSeq` gives when instantiated with 0, 1 and 2. Hence `ClearLine` writes the
sequence `ClearLines` builds as its erase-line block, and `ClearLines 0` writes the same
bytes as `ClearLine`. -/
theorem erase_line_constants_instantiate_template (o : Output) :
    Sprintf (CSI ++ EraseLineSeq) [Arg.int 0] = .ok (CSI ++ EraseLineRightSeq) ∧
    Sprintf (CSI ++ EraseLineSeq) [Arg.int 1] = .ok (CSI ++ EraseLineLeftSeq) ∧
    Sprintf (CSI ++ EraseLineSeq) [Arg.int 2] = .ok (CSI ++ EraseEntireLineSeq) ∧
    o.ClearLineRight = Fprintf o (CSI ++ EraseLineSeq) [Arg.int 0] ∧
    o.ClearLineLeft = Fprintf o (CSI ++ EraseLineSeq) [Arg.int 1] ∧
    o.ClearLine = Fprintf o (CSI ++ EraseLineSeq) [Arg.int 2] ∧
    o.ClearLine = .ok ⟨o.tty ++ [CSI ++ EraseEntireLineSeq]⟩ ∧
    o.ClearLines 0 = o.ClearLine := by
  have h0 : Sprintf (CSI ++ EraseLineSeq) [Arg.int 0] = .ok (CSI ++ EraseLineRightSeq) := by
    decide
  have h1 : Sprintf (CSI ++ EraseLineSeq) [Arg.int 1] = .ok (CSI ++ EraseLineLeftSeq) := by
    decide
  have h2 : Sprintf (CSI ++ EraseLineSeq) [Arg.int 2] = .ok (CSI ++ EraseEntireLineSeq) := by
    decide
  refine ⟨h0, h1, h2, ?_, ?_, ?_, rfl, ?_⟩
  · simp only [Fprintf, h0]; rfl
  · simp only [Fprintf, h1]; rfl
  · simp only [Fprintf, h2]; rfl
  · have hc := ClearLines_of_fits o 0 (by decide)
    simpa using hc

/-! ## Legacy functions -/

/-- C17: the legacy package-level functions are pure delegation: for each of them and
for all arguments, the call on the default sink gives exactly the result (the same
writes, in the same order) of the `Output` method of the same name with the same
arguments, in the same order, on an `Output` bound to that sink. -/
theorem legacy_functions_delegate (rs : List Nat) (sink : List (List Nat))
    (color : Color) (row column n top bottom : Int) (title : List Nat) :
    Reset rs sink = (Output.mk sink).Reset rs ∧
    SetForegroundColor sink color = (Output.mk sink).SetForegroundColor color ∧
    SetBackgroundColor sink color = (Output.mk sink).SetBackgroundColor color ∧
    SetCursorColor sink color = (Output.mk sink).SetCursorColor color ∧
    RestoreScreen sink = (Output.mk sink).RestoreScreen ∧
    SaveScreen sink = (Output.mk sink).SaveScreen ∧
    AltScreen sink = (Output.mk sink).AltScreen ∧
    ExitAltScreen sink = (Output.mk sink).ExitAltScreen ∧
    ClearScreen sink = (Output.mk sink).ClearScreen ∧
    MoveCursor sink row column = (Output.mk sink).MoveCursor row column ∧
    HideCursor sink = (Output.mk sink).HideCursor ∧
    ShowCursor sink = (Output.mk sink).ShowCursor ∧
    SaveCursorPosition sink = (Output.mk sink).SaveCursorPosition ∧
    RestoreCursorPosition sink = (Output.mk sink).RestoreCursorPosition ∧
    CursorUp sink n = (Output.mk sink).CursorUp n ∧
    CursorDown sink n = (Output.mk sink).CursorDown n ∧
    CursorForward sink n = (Output.mk sink).CursorForward n ∧
    CursorBack sink n = (Output.mk sink).CursorBack n ∧
    CursorNextLine sink n = (Output.mk sink).CursorNextLine n ∧
    CursorPrevLine sink n = (Output.mk sink).CursorPrevLine n ∧
    ClearLine sink = (Output.mk sink).ClearLine ∧
    ClearLineLeft sink = (Output.mk sink).ClearLineLeft ∧
    ClearLineRight sink = (Output.mk sink).ClearLineRight ∧
    ClearLines sink n = (Output.mk sink).ClearLines n ∧
    ChangeScrollingRegion sink top bottom = (Output.mk sink).ChangeScrollingRegion top bottom ∧
    InsertLines sink n = (Output.mk sink).InsertLines n ∧
    DeleteLines sink n = (Output.mk sink).DeleteLines n ∧
    EnableMousePress sink = (Output.mk sink).EnableMousePress ∧
    DisableMousePress sink = (Output.mk sink).DisableMousePress ∧
    EnableMouse sink = (Output.mk sink).EnableMouse ∧
    DisableMouse sink = (Output.mk sink).DisableMouse ∧
    EnableMouseHilite sink = (Output.mk sink).EnableMouseHilite ∧
    DisableMouseHilite sink = (Output.mk sink).DisableMouseHilite ∧
    EnableMouseCellMotion sink = (Output.mk sink).EnableMouseCellMotion ∧
    DisableMouseCellMotion sink = (Output.mk sink).DisableMouseCellMotion ∧
    EnableMouseAllMotion sink = (Output.mk sink).EnableMouseAllMotion ∧
    DisableMouseAllMotion sink = (Output.mk sink).DisableMouseAllMotion ∧
    SetWindowTitle sink title = (Output.mk sink).SetWindowTitle title := by
  exact ⟨rfl, rfl, rfl, rfl, rfl, rfl, rfl, rfl, rfl, rfl, rfl, rfl, rfl, rfl, rfl, rfl, rfl, rfl, rfl, rfl, rfl, rfl, rfl, rfl, rfl, rfl, rfl, rfl, rfl, rfl, rfl, rfl, rfl, rfl, rfl, rfl, rfl, rfl⟩

/-! ## Framing of the title sequence -/

/-- C19: for every title that contains neither `ESC` nor `BEL`, the single write of
`SetWindowTitle title` contains exactly one `ESC`, as its first byte, and exactly one
`BEL`, as its last byte; and there is a title containing `BEL` whose write has a `BEL`
before its last byte, so the sequence is terminated early. -/
theorem setWindowTitle_framing (o : Output) (title : List Nat)
    (hesc : 27 ∉ title) (hbel : 7 ∉ title) :
    (∃ w, o.SetWindowTitle title = .ok ⟨o.tty ++ [w]⟩ ∧
      w.count 27 = 1 ∧ w.head? = some 27 ∧ w.count 7 = 1 ∧ w.getLast? = some 7) ∧
    (∃ t w, 7 ∈ t ∧ o.SetWindowTitle t = .ok ⟨o.tty ++ [w]⟩ ∧ 7 ∈ w.dropLast) := by
  have key : ∀ t : List Nat,
      o.SetWindowTitle t = .ok ⟨o.tty ++ [[27, 93, 50, 59] ++ t ++ [7]]⟩ :=
    fun t => Fprintf_str_bel o [50] t (by decide)
  refine ⟨⟨_, key title, ?_, ?_, ?_, ?_⟩, ⟨[97, 7, 98], _, by decide, key _, by decide⟩⟩
  · simp [List.count_eq_zero_of_not_mem hesc]
  · rfl
  · simp [List.count_eq_zero_of_not_mem hbel]
  · exact List.getLast?_concat _

theorem setWindowTitle_framing_witness :
    27 ∉ [104, 105] ∧ 7 ∉ [104, 105] ∧
    ((∃ w, (Output.mk []).SetWindowTitle [104, 105] = .ok ⟨[] ++ [w]⟩ ∧
        w.count 27 = 1 ∧ w.head? = some 27 ∧ w.count 7 = 1 ∧ w.getLast? = some 7) ∧
      (∃ t w, 7 ∈ t ∧ (Output.mk []).SetWindowTitle t = .ok ⟨[] ++ [w]⟩ ∧
        7 ∈ w.dropLast)) :=
  ⟨by decide, by decide,
    setWindowTitle_framing (Output.mk []) [104, 105] (by decide) (by decide)⟩

/-! ## Negative parameters -/

theorem fmtInteger_eq_signedDecimal (i : Int) : fmtInteger i = signedDecimal i := by
  unfold signedDecimal
  split
  · rename_i h
    exact fmtInteger_of_neg h
  · have h : i = ((i.natAbs : Nat) : Int) := by omega
    conv_lhs => rw [h]
    exact fmtInteger_natCast _

theorem single_int_op_eq (o : Output) (n : Int) :
    o.CursorUp n = .ok ⟨o.tty ++ [[27, 91] ++ fmtInteger n ++ [65]]⟩ ∧
    o.CursorDown n = .ok ⟨o.tty ++ [[27, 91] ++ fmtInteger n ++ [66]]⟩ ∧
    o.CursorForward n = .ok ⟨o.tty ++ [[27, 91] ++ fmtInteger n ++ [67]]⟩ ∧
    o.CursorBack n = .ok ⟨o.tty ++ [[27, 91] ++ fmtInteger n ++ [68]]⟩ ∧
    o.CursorNextLine n = .ok ⟨o.tty ++ [[27, 91] ++ fmtInteger n ++ [69]]⟩ ∧
    o.CursorPrevLine n = .ok ⟨o.tty ++ [[27, 91] ++ fmtInteger n ++ [70]]⟩ ∧
    o.InsertLines n = .ok ⟨o.tty ++ [[27, 91] ++ fmtInteger n ++ [76]]⟩ ∧
    o.DeleteLines n = .ok ⟨o.tty ++ [[27, 91] ++ fmtInteger n ++ [77]]⟩ :=
  ⟨Fprintf_int_final o n 65 (by decide), Fprintf_int_final o n 66 (by decide),
    Fprintf_int_final o n 67 (by decide), Fprintf_int_final o n 68 (by decide),
    Fprintf_int_final o n 69 (by decide), Fprintf_int_final o n 70 (by decide),
    Fprintf_int_final o n 76 (by decide), Fprintf_int_final o n 77 (by decide)⟩

/-- C20: integer parameters are not range-checked: for every negative `n`, `CursorUp n`
returns normally after appending exactly one write, `ESC [ -`, the decimal rendering of
`|n|`, `'A'`; the value is not rejected, and the write differs from the one for any
non-negative count (so it is not clamped to 0 or 1 and not replaced by `|n|`). The same
holds for `CursorDown`, `CursorForward`, `CursorBack`, `CursorNextLine`, `CursorPrevLine`,
`InsertLines`, `DeleteLines`, and for a negative argument of `MoveCursor` and
`ChangeScrollingRegion` in either position. -/
theorem negative_parameters_written_with_minus_sign (o : Output) (n m : Int) (hn : n < 0) :
    o.CursorUp n = .ok ⟨o.tty ++ [[27, 91, 45] ++ decimal n.natAbs ++ [65]]⟩ ∧
    o.CursorDown n = .ok ⟨o.tty ++ [[27, 91, 45] ++ decimal n.natAbs ++ [66]]⟩ ∧
    o.CursorForward n = .ok ⟨o.tty ++ [[27, 91, 45] ++ decimal n.natAbs ++ [67]]⟩ ∧
    o.CursorBack n = .ok ⟨o.tty ++ [[27, 91, 45] ++ decimal n.natAbs ++ [68]]⟩ ∧
    o.CursorNextLine n = .ok ⟨o.tty ++ [[27, 91, 45] ++ decimal n.natAbs ++ [69]]⟩ ∧
    o.CursorPrevLine n = .ok ⟨o.tty ++ [[27, 91, 45] ++ decimal n.natAbs ++ [70]]⟩ ∧
    o.InsertLines n = .ok ⟨o.tty ++ [[27, 91, 45] ++ decimal n.natAbs ++ [76]]⟩ ∧
    o.DeleteLines n = .ok ⟨o.tty ++ [[27, 91, 45] ++ decimal n.natAbs ++ [77]]⟩ ∧
    o.MoveCursor n m = .ok ⟨o.tty
      ++ [[27, 91, 45] ++ decimal n.natAbs ++ [59] ++ signedDecimal m ++ [72]]⟩ ∧
    o.MoveCursor m n = .ok ⟨o.tty
      ++ [[27, 91] ++ signedDecimal m ++ [59, 45] ++ decimal n.natAbs ++ [72]]⟩ ∧
    o.ChangeScrollingRegion n m = .ok ⟨o.tty
      ++ [[27, 91, 45] ++ decimal n.natAbs ++ [59] ++ signedDecimal m ++ [114]]⟩ ∧
    o.ChangeScrollingRegion m n = .ok ⟨o.tty
      ++ [[27, 91] ++ signedDecimal m ++ [59, 45] ++ decimal n.natAbs ++ [114]]⟩ ∧
    (∀ k : Int, 0 ≤ k → o.CursorUp n ≠ o.CursorUp k) := by
  have hneg : fmtInteger n = 45 :: decimal n.natAbs := fmtInteger_of_neg hn
  have hm : fmtInteger m = signedDecimal m := fmtInteger_eq_signedDecimal m
  obtain ⟨h1, h2, h3, h4, h5, h6, h7, h8⟩ := single_int_op_eq o n
  rw [hneg] at h1 h2 h3 h4 h5 h6 h7 h8
  refine ⟨by simpa using h1, by simpa using h2, by simpa using h3, by simpa using h4,
    by simpa using h5, by simpa using h6, by simpa using h7, by simpa using h8,
    ?_, ?_, ?_, ?_, ?_⟩
  · rw [MoveCursor_eq, hneg, hm]; simp
  · rw [MoveCursor_eq, hneg, hm]; simp
  · rw [ChangeScrollingRegion_eq, hneg, hm]; simp
  · rw [ChangeScrollingRegion_eq, hneg, hm]; simp
  · intro k hk h
    obtain ⟨j, rfl⟩ := Int.eq_ofNat_of_zero_le hk
    rw [h1, CursorUp_eq, fmtInteger_natCast] at h
    have hw := single_write_inj h
    obtain ⟨d, ds, hd, hge⟩ := decimal_head_ge j
    rw [hd] at hw
    simp at hw
    omega

theorem negative_parameters_written_with_minus_sign_witness :
    (-3 : Int) < 0 ∧
    (Output.mk []).CursorUp (-3)
      = .ok ⟨[] ++ [[27, 91, 45] ++ decimal (Int.natAbs (-3)) ++ [65]]⟩ :=
  ⟨by decide,
    (negative_parameters_written_with_minus_sign (Output.mk []) (-3) 7 (by decide)).1⟩

/-! ## Well-formed control sequences -/

theorem csiAccepts_body_params (ps rest : List Nat) (h : ∀ b ∈ ps, 48 ≤ b ∧ b ≤ 63) :
    csiAccepts .body (ps ++ rest) = csiAccepts .body rest := by
  induction ps with
  | nil => rfl
  | cons b bs ih =>
    have hb : 48 ≤ b ∧ b ≤ 63 := h b (by simp)
    rw [List.cons_append, csiAccepts, if_pos hb]
    exact ih (fun x hx => h x (by simp [hx]))

theorem csiAccepts_body_final (f : Nat) (rest : List Nat) (hf : 64 ≤ f ∧ f ≤ 126) :
    csiAccepts .body (f :: rest) = csiAccepts .done rest := by
  have hn : ¬ (48 ≤ f ∧ f ≤ 63) := by omega
  rw [csiAccepts, if_neg hn, if_pos hf]

theorem csiAccepts_start_seq (ps : List Nat) (f : Nat) (rest : List Nat)
    (hps : ∀ b ∈ ps, 48 ≤ b ∧ b ≤ 63) (hf : 64 ≤ f ∧ f ≤ 126) :
    csiAccepts .start ([27, 91] ++ ps ++ f :: rest) = csiAccepts .done rest := by
  have h : [27, 91] ++ ps ++ f :: rest = 27 :: 91 :: (ps ++ f :: rest) := by simp
  rw [h]
  simp only [csiAccepts, beq_self_eq_true, Bool.true_and]
  rw [csiAccepts_body_params ps _ hps, csiAccepts_body_final f rest hf]

theorem csiAccepts_done_seq (ps : List Nat) (f : Nat) (rest : List Nat)
    (hps : ∀ b ∈ ps, 48 ≤ b ∧ b ≤ 63) (hf : 64 ≤ f ∧ f ≤ 126) :
    csiAccepts .done ([27, 91] ++ ps ++ f :: rest) = csiAccepts .done rest := by
  have h : [27, 91] ++ ps ++ f :: rest = 27 :: 91 :: (ps ++ f :: rest) := by simp
  rw [h]
  simp only [csiAccepts, beq_self_eq_true, Bool.true_and]
  rw [csiAccepts_body_params ps _ hps, csiAccepts_body_final f rest hf]

theorem csiAccepts_single (ps : List Nat) (f : Nat)
    (hps : ∀ b ∈ ps, 48 ≤ b ∧ b ≤ 63) (hf : 64 ≤ f ∧ f ≤ 126) :
    csiAccepts .start ([27, 91] ++ ps ++ [f]) = true := by
  rw [csiAccepts_start_seq ps f [] hps hf]
  rfl

theorem decimal_params (n : Nat) : ∀ b ∈ decimal n, 48 ≤ b ∧ b ≤ 63 := by
  intro b hb
  have := decimal_bytes_are_digits n b hb
  omega

theorem decimal_pair_params (a b : Nat) :
    ∀ x ∈ decimal a ++ [59] ++ decimal b, 48 ≤ x ∧ x ≤ 63 := by
  intro x hx
  simp only [List.mem_append, List.mem_singleton] at hx
  rcases hx with (hx | hx) | hx
  · exact decimal_params a x hx
  · omega
  · exact decimal_params b x hx

theorem csiAccepts_done_repeat (n : Nat) :
    csiAccepts .done (List.replicate n ([27, 91, 49, 65] ++ [27, 91, 50, 75])).flatten
      = true := by
  induction n with
  | zero => rfl
  | succ n ih =>
    rw [List.replicate_succ, List.flatten_cons]
    have h := csiAccepts_done_seq [49] 65
      ([27, 91, 50, 75] ++ (List.replicate n ([27, 91, 49, 65] ++ [27, 91, 50, 75])).flatten)
      (by decide) (by decide)
    have h' := csiAccepts_done_seq [50] 75
      ((List.replicate n ([27, 91, 49, 65] ++ [27, 91, 50, 75])).flatten)
      (by decide) (by decide)
    simp only [List.cons_append, List.nil_append, List.append_assoc] at h h' ⊢
    rw [h, h']
    exact ih

theorem csiAccepts_clearLines (n : Nat) :
    csiAccepts .start ([27, 91, 50, 75]
      ++ (List.replicate n ([27, 91, 49, 65] ++ [27, 91, 50, 75])).flatten) = true := by
  have h := csiAccepts_start_seq [50] 75
    ((List.replicate n ([27, 91, 49, 65] ++ [27, 91, 50, 75])).flatten)
    (by decide) (by decide)
  simp only [List.cons_append, List.nil_append] at h ⊢
  rw [h]
  exact csiAccepts_done_repeat n

theorem Op.run_csi (rs : List Nat) (op : Op) (o : Output)
    (hrs : ∀ b ∈ rs, 48 ≤ b ∧ b ≤ 63) (hcsi : op.usesCSI = true)
    (hargs : ∀ i ∈ op.intArgs, 0 ≤ i)
    (hfit : ∀ n : Int, op = .ClearLines n → 8 * n ≤ (maxInt : Int)) :
    ∃ ws, op.run rs o = .ok ⟨o.tty ++ ws⟩ ∧ ws ≠ [] ∧
      ∀ w ∈ ws, csiAccepts .start w = true := by
  have single : ∀ (n : Int) (f : Nat), 0 ≤ n → 64 ≤ f ∧ f ≤ 126 →
      ∀ w ∈ [[27, 91] ++ fmtInteger n ++ [f]], csiAccepts .start w = true := by
    intro n f h0 hf w hw
    obtain ⟨k, rfl⟩ := Int.eq_ofNat_of_zero_le h0
    rw [List.mem_singleton] at hw
    subst hw
    rw [fmtInteger_natCast]
    exact csiAccepts_single _ f (decimal_params k) hf
  have pair : ∀ (a b : Int) (f : Nat), 0 ≤ a → 0 ≤ b → 64 ≤ f ∧ f ≤ 126 →
      ∀ w ∈ [[27, 91] ++ fmtInteger a ++ [59] ++ fmtInteger b ++ [f]],
        csiAccepts .start w = true := by
    intro a b f ha hb hf w hw
    obtain ⟨k, rfl⟩ := Int.eq_ofNat_of_zero_le ha
    obtain ⟨l, rfl⟩ := Int.eq_ofNat_of_zero_le hb
    rw [List.mem_singleton] at hw
    subst hw
    rw [fmtInteger_natCast, fmtInteger_natCast]
    have h := csiAccepts_single _ f (decimal_pair_params k l) hf
    simpa using h
  cases op
  case SetForegroundColor c => exact absurd hcsi (by simp [Op.usesCSI])
  case SetBackgroundColor c => exact absurd hcsi (by simp [Op.usesCSI])
  case SetCursorColor c => exact absurd hcsi (by simp [Op.usesCSI])
  case SetWindowTitle t => exact absurd hcsi (by simp [Op.usesCSI])
  case Reset =>
    refine ⟨[[27, 91] ++ rs ++ [109]], rfl, by simp, ?_⟩
    intro w hw
    rw [List.mem_singleton] at hw
    subst hw
    exact csiAccepts_single rs 109 hrs (by decide)
  case ClearLines n =>
    have h0 : 0 ≤ n := hargs n (by simp [Op.intArgs])
    have h8 := hfit n rfl
    obtain ⟨m, rfl⟩ := Int.eq_ofNat_of_zero_le h0
    refine ⟨_, ClearLines_of_fits o m (by exact_mod_cast h8), by simp, ?_⟩
    intro w hw
    rw [List.mem_singleton] at hw
    subst hw
    exact csiAccepts_clearLines m
  case ClearScreen => exact ⟨_, ClearScreen_eq o, by simp, by decide⟩
  case MoveCursor r c =>
    exact ⟨_, MoveCursor_eq o r c, by simp,
      pair r c 72 (hargs r (by simp [Op.intArgs])) (hargs c (by simp [Op.intArgs]))
        (by decide)⟩
  case ChangeScrollingRegion t b =>
    exact ⟨_, ChangeScrollingRegion_eq o t b, by simp,
      pair t b 114 (hargs t (by simp [Op.intArgs])) (hargs b (by simp [Op.intArgs]))
        (by decide)⟩
  case CursorUp n =>
    exact ⟨_, (single_int_op_eq o n).1, by simp, single n 65 (hargs n (by simp [Op.intArgs])) (by decide)⟩
  case CursorDown n =>
    exact ⟨_, (single_int_op_eq o n).2.1, by simp, single n 66 (hargs n (by simp [Op.intArgs])) (by decide)⟩
  case CursorForward n =>
    exact ⟨_, (single_int_op_eq o n).2.2.1, by simp, single n 67 (hargs n (by simp [Op.intArgs])) (by decide)⟩
  case CursorBack n =>
    exact ⟨_, (single_int_op_eq o n).2.2.2.1, by simp, single n 68 (hargs n (by simp [Op.intArgs])) (by decide)⟩
  case CursorNextLine n =>
    exact ⟨_, (single_int_op_eq o n).2.2.2.2.1, by simp, single n 69 (hargs n (by simp [Op.intArgs])) (by decide)⟩
  case CursorPrevLine n =>
    exact ⟨_, (single_int_op_eq o n).2.2.2.2.2.1, by simp, single n 70 (hargs n (by simp [Op.intArgs])) (by decide)⟩
  case InsertLines n =>
    exact ⟨_, (single_int_op_eq o n).2.2.2.2.2.2.1, by simp, single n 76 (hargs n (by simp [Op.intArgs])) (by decide)⟩
  case DeleteLines n =>
    exact ⟨_, (single_int_op_eq o n).2.2.2.2.2.2.2, by simp, single n 77 (hargs n (by simp [Op.intArgs])) (by decide)⟩
  all_goals exact ⟨_, rfl, by simp, by decide⟩

/-- C13: every write of a CSI-based operation of the file, for non-negative integer
arguments, is a concatenation of one or more well-formed CSI sequences: `ESC [`, then
zero or more parameter bytes in 0x30 to 0x3F, then exactly one final byte in 0x40 to
0x7E, and no other byte. The operation returns normally whenever its sequence can be
built (always, except `ClearLines n` with `8 * n > maxInt`, which writes nothing).
`Reset` is covered for a constant `ResetSeq` made of parameter bytes. -/
theorem csi_ops_write_wellformed_sequences (rs : List Nat) (op : Op) (o : Output)
    (hrs : ∀ b ∈ rs, 48 ≤ b ∧ b ≤ 63) (hcsi : op.usesCSI = true)
    (hargs : ∀ i ∈ op.intArgs, 0 ≤ i) :
    (∀ o' : Output, op.run rs o = .ok o' →
      ∃ ws, o' = ⟨o.tty ++ ws⟩ ∧ ws ≠ [] ∧ ∀ w ∈ ws, csiAccepts .start w = true) ∧
    ((∀ n : Int, op = .ClearLines n → 8 * n ≤ (maxInt : Int)) →
      ∃ o' : Output, op.run rs o = .ok o') := by
  constructor
  · intro o' ho
    by_cases hfit : ∀ n : Int, op = .ClearLines n → 8 * n ≤ (maxInt : Int)
    · obtain ⟨ws, hrun, hne, hall⟩ := Op.run_csi rs op o hrs hcsi hargs hfit
      rw [hrun] at ho
      exact ⟨ws, (Except.ok.inj ho).symm, hne, hall⟩
    · push_neg at hfit
      obtain ⟨n, rfl, hbig⟩ := hfit
      have h0 : 0 ≤ n := hargs n (by simp [Op.intArgs])
      have hp : (Op.ClearLines n).run rs o = .error .repeatOverflow :=
        ClearLines_of_overflow o h0 hbig
      rw [hp] at ho
      exact nomatch ho
  · intro hfit
    obtain ⟨ws, hrun, _, _⟩ := Op.run_csi rs op o hrs hcsi hargs hfit
    exact ⟨_, hrun⟩

theorem csi_ops_write_wellformed_sequences_witness :
    (∀ b ∈ [48], 48 ≤ b ∧ b ≤ 63) ∧ (Op.MoveCursor 3 10).usesCSI = true ∧
    (∀ i ∈ (Op.MoveCursor 3 10).intArgs, 0 ≤ i) ∧
    ((∀ o' : Output, (Op.MoveCursor 3 10).run [48] (Output.mk []) = .ok o' →
        ∃ ws, o' = ⟨[] ++ ws⟩ ∧ ws ≠ [] ∧ ∀ w ∈ ws, csiAccepts .start w = true) ∧
      ((∀ n : Int, Op.MoveCursor 3 10 = .ClearLines n → 8 * n ≤ (maxInt : Int)) →
        ∃ o' : Output, (Op.MoveCursor 3 10).run [48] (Output.mk []) = .ok o')) :=
  ⟨by decide, rfl, by decide,
    csi_ops_write_wellformed_sequences [48] (Op.MoveCursor 3 10) (Output.mk [])
      (by decide) rfl (by decide)⟩

/-! ## Repeated calls -/

theorem Op.run_noParams (rs : List Nat) (op : Op) (h : op.noParams = true) :
    ∃ ws, (∀ o : Output, op.run rs o = .ok ⟨o.tty ++ ws⟩) ∧
      (op ≠ .ClearScreen → ∃ w, ws = [w]) ∧ (op = .ClearScreen → ws.length = 2) := by
  cases op
  case ClearScreen =>
    exact ⟨_, fun o => ClearScreen_eq o, fun hne => absurd rfl hne, fun _ => rfl⟩
  case Reset =>
    exact ⟨[[27, 91] ++ rs ++ [109]], fun _ => rfl, fun _ => ⟨_, rfl⟩, fun hc => nomatch hc⟩
  case SetForegroundColor c => exact absurd h (by simp [Op.noParams])
  case SetBackgroundColor c => exact absurd h (by simp [Op.noParams])
  case SetCursorColor c => exact absurd h (by simp [Op.noParams])
  case SetWindowTitle t => exact absurd h (by simp [Op.noParams])
  case MoveCursor r c => exact absurd h (by simp [Op.noParams])
  case ChangeScrollingRegion t b => exact absurd h (by simp [Op.noParams])
  case CursorUp n => exact absurd h (by simp [Op.noParams])
  case CursorDown n => exact absurd h (by simp [Op.noParams])
  case CursorForward n => exact absurd h (by simp [Op.noParams])
  case CursorBack n => exact absurd h (by simp [Op.noParams])
  case CursorNextLine n => exact absurd h (by simp [Op.noParams])
  case CursorPrevLine n => exact absurd h (by simp [Op.noParams])
  case ClearLines n => exact absurd h (by simp [Op.noParams])
  case InsertLines n => exact absurd h (by simp [Op.noParams])
  case DeleteLines n => exact absurd h (by simp [Op.noParams])
  all_goals exact ⟨_, fun _ => rfl, fun _ => ⟨_, rfl⟩, fun hc => nomatch hc⟩

/-- C14 (as stated, refuted): `ClearScreen` takes no parameter, and calling it twice in a
row appends four writes, not two identical ones: erase-display, move-cursor,
erase-display, move-cursor. -/
theorem clearScreen_twice_appends_four_writes :
    (Output.mk []).ClearScreen.bind Output.ClearScreen
      = .ok ⟨[[27, 91, 50, 74], [27, 91, 49, 59, 49, 72],
          [27, 91, 50, 74], [27, 91, 49, 59, 49, 72]]⟩ ∧
    ¬ ∃ w : List Nat,
        (Output.mk []).ClearScreen.bind Output.ClearScreen = .ok ⟨[] ++ [w, w]⟩ := by
  have h : (Output.mk []).ClearScreen.bind Output.ClearScreen
      = .ok ⟨[[27, 91, 50, 74], [27, 91, 49, 59, 49, 72],
          [27, 91, 50, 74], [27, 91, 49, 59, 49, 72]]⟩ := by decide
  refine ⟨h, ?_⟩
  rintro ⟨w, hw⟩
  rw [h] at hw
  have h2 := congrArg List.length (congrArg Output.tty (Except.ok.inj hw))
  simp at h2

/-- C14 (amended): for every zero-parameter operation, calling it twice in a row on the
same sink appends twice what a single call appends, byte for byte, after the sink's
earlier contents, which are left unchanged; the second call is not suppressed or altered
by the first. A single call appends one write, except `ClearScreen`, which appends
two. -/
theorem zero_parameter_ops_repeat_identically (rs : List Nat) (op : Op) (o : Output)
    (h : op.noParams = true) :
    ∃ ws, op.run rs o = .ok ⟨o.tty ++ ws⟩ ∧
      (op.run rs o).bind (op.run rs) = .ok ⟨o.tty ++ ws ++ ws⟩ ∧
      (op ≠ .ClearScreen → ∃ w, ws = [w]) ∧ (op = .ClearScreen → ws.length = 2) := by
  obtain ⟨ws, hrun, h1, h2⟩ := Op.run_noParams rs op h
  refine ⟨ws, hrun o, ?_, h1, h2⟩
  rw [hrun o]
  exact hrun ⟨o.tty ++ ws⟩

theorem zero_parameter_ops_repeat_identically_witness :
    Op.HideCursor.noParams = true ∧
    ∃ ws, Op.HideCursor.run [48] (Output.mk []) = .ok ⟨[] ++ ws⟩ ∧
      (Op.HideCursor.run [48] (Output.mk [])).bind (Op.HideCursor.run [48])
        = .ok ⟨[] ++ ws ++ ws⟩ ∧
      (Op.HideCursor ≠ .ClearScreen → ∃ w, ws = [w]) ∧
      (Op.HideCursor = .ClearScreen → ws.length = 2) :=
  ⟨rfl, zero_parameter_ops_repeat_identically [48] Op.HideCursor (Output.mk []) rfl⟩

/-! ## Number of erase sequences in ClearLines -/

theorem countSeq_erase_block (rest : List Nat) :
    countSeq [27, 91, 50, 75] ([27, 91, 50, 75] ++ rest)
      = 1 + countSeq [27, 91, 50, 75] rest := by
  simp [countSeq, List.isPrefixOf]

theorem countSeq_up_block (rest : List Nat) :
    countSeq [27, 91, 50, 75] ([27, 91, 49, 65] ++ rest)
      = countSeq [27, 91, 50, 75] rest := by
  simp [countSeq, List.isPrefixOf]

theorem countSeq_repeat (n : Nat) :
    countSeq [27, 91, 50, 75]
      (List.replicate n ([27, 91, 49, 65] ++ [27, 91, 50, 75])).flatten = n := by
  induction n with
  | zero => rfl
  | succ n ih =>
    rw [List.replicate_succ, List.flatten_cons, List.append_assoc, countSeq_up_block,
      countSeq_erase_block, ih]
    omega

/-- C15 (as stated, refuted): the single write of `ClearLines 1` is
`ESC [ 2 K ESC [ 1 A ESC [ 2 K`, which contains two erase-entire-line sequences, not
one. -/
theorem clearLines_one_writes_two_erase_sequences :
    (Output.mk []).ClearLines 1
      = .ok ⟨[[27, 91, 50, 75, 27, 91, 49, 65, 27, 91, 50, 75]]⟩ ∧
    countSeq [27, 91, 50, 75] [27, 91, 50, 75, 27, 91, 49, 65, 27, 91, 50, 75] = 2 ∧
    ¬ ∃ w : List Nat, (Output.mk []).ClearLines 1 = .ok ⟨[] ++ [w]⟩ ∧
        countSeq [27, 91, 50, 75] w = 1 := by
  have h : (Output.mk []).ClearLines 1
      = .ok ⟨[[27, 91, 50, 75, 27, 91, 49, 65, 27, 91, 50, 75]]⟩ := by decide
  refine ⟨h, by decide, ?_⟩
  rintro ⟨w, hw, hc⟩
  rw [h] at hw
  have hlist := congrArg Output.tty (Except.ok.inj hw)
  have hw' : [27, 91, 50, 75, 27, 91, 49, 65, 27, 91, 50, 75] = w := by
    simpa using hlist
  subst hw'
  exact absurd hc (by decide)

/-- C15 (amended): for every `n ≥ 0` whose repeated part fits in an `int`, the single
write of `ClearLines n` contains exactly `n + 1` erase-entire-line sequences `ESC [ 2 K`:
one for the current line and one for each of the `n` lines above it; `ClearLines 0`
erases the current line. -/
theorem clearLines_writes_one_more_erase (o : Output) (n : Nat) (h : 8 * n ≤ maxInt) :
    ∃ w, o.ClearLines n = .ok ⟨o.tty ++ [w]⟩ ∧ countSeq [27, 91, 50, 75] w = n + 1 := by
  refine ⟨_, ClearLines_of_fits o n h, ?_⟩
  rw [countSeq_erase_block, countSeq_repeat]
  omega

theorem clearLines_writes_one_more_erase_witness :
    8 * 1 ≤ maxInt ∧
    ∃ w, (Output.mk []).ClearLines ((1 : Nat) : Int) = .ok ⟨[] ++ [w]⟩ ∧
      countSeq [27, 91, 50, 75] w = 1 + 1 :=
  ⟨by decide, clearLines_writes_one_more_erase (Output.mk []) 1 (by decide)⟩

end Termenv
